import Mathlib

/-!
# Agentica: offline cache, sync queue and reconciliation

A shallow embedding of the client-side persistence layer (`src/client/js/db.js`),
the reconciliation loop (`src/client/js/sync.js`), the import wizard's upload
handler (`src/client/js/wizard.js`) and the service-worker strategies
(`src/client/sw.js`).

IndexedDB tables are lists kept in primary-key order; asynchronous functions are
state-passing functions whose environment (connectivity, clock, network outcome)
is an explicit argument.
-/

namespace Agentica

/-! ## Local store (`db.js`) -/

/-- A product snapshot as held in the `products` table. The primary key is `id`;
`sku`, `handle` and `title` are the indexed fields of the schema
`'id, sku, handle, title'` and may be absent; `fields` holds every other
property of the object. -/
structure Entity where
  id : String
  title : Option String
  sku : Option String
  handle : Option String
  fields : List (String × String)
deriving DecidableEq, Repr

/-- Payload of a queued operation. The fields read by `processSyncQueue` are
`fileBase64` and `fileName`; either may be absent. -/
structure Payload where
  fileBase64 : Option String
  fileName : Option String
  fields : List (String × String)
deriving DecidableEq, Repr

/-- A row of the `syncQueue` table (schema `'++id, type, createdAt'`): the
auto-incremented key `id` and the object `{ type, payload, createdAt }` written by
`enqueueSync`. The source writes the field `type`; it is called `kind` here. -/
structure QueueItem where
  id : Nat
  kind : String
  payload : Payload
  createdAt : String
deriving DecidableEq, Repr

/-- The Dexie database `AgenticaInventory`: both tables in primary-key order and the
key generator of the auto-increment store (the next key it will hand out). -/
structure LocalDB where
  products : List Entity
  syncQueue : List QueueItem
  nextId : Nat
deriving DecidableEq, Repr

/-- The database right after `localDB.version(1).stores(...)`: empty tables, key
generator at 1. -/
def LocalDB.empty : LocalDB := ⟨[], [], 1⟩

/-- One `put` on the `products` object store: the record whose key equals `e.id` is
replaced as a whole; otherwise `e` is inserted at its place in key order. Keys are
compared as Lean strings, code point by code point; IndexedDB compares UTF-16 code
units, which gives another order only between keys that hold a character beyond the
Basic Multilingual Plane. -/
def putProduct : List Entity → Entity → List Entity
  | [], e => [e]
  | x :: xs, e =>
    if e.id = x.id then e :: xs
    else if e.id < x.id then e :: x :: xs
    else x :: putProduct xs e

/-- `Table.bulkPut`: the values are put one by one, in array order. -/
def bulkPut (table : List Entity) (values : List Entity) : List Entity :=
  values.foldl putProduct table

/-- `localDB.products.get(id)`. -/
def getProduct (table : List Entity) (id : String) : Option Entity :=
  table.find? (fun x => decide (x.id = id))

/-- `saveProducts(products)`: nothing on an empty array, else `bulkPut`. -/
def saveProducts (db : LocalDB) (products : List Entity) : LocalDB :=
  if products.length = 0 then db
  else { db with products := bulkPut db.products products }

/-- `clearProducts()`. -/
def clearProducts (db : LocalDB) : LocalDB :=
  { db with products := [] }

/-- One `add` on an object store with key generator: the record is stored at its
place in key order. -/
def insertItem : List QueueItem → QueueItem → List QueueItem
  | [], it => [it]
  | x :: xs, it =>
    if it.id < x.id then it :: x :: xs
    else x :: insertItem xs it

/-- `enqueueSync(type, payload)`: adds `{ type, payload, createdAt }` under the next
generated key. `now` is the value of `new Date().toISOString()`. -/
def enqueueSync (db : LocalDB) (kind : String) (payload : Payload) (now : String) : LocalDB :=
  { db with
    syncQueue := insertItem db.syncQueue ⟨db.nextId, kind, payload, now⟩
    nextId := db.nextId + 1 }

/-- `localDB.syncQueue.toArray()`: all rows in primary-key order. -/
def syncQueueToArray (db : LocalDB) : List QueueItem := db.syncQueue

/-- `localDB.syncQueue.clear()`: removes all rows; the key generator keeps its
value. -/
def syncQueueClear (db : LocalDB) : LocalDB := { db with syncQueue := [] }

/-- `drainSyncQueue()`: reads all rows, clears the table, returns the rows read. -/
def drainSyncQueue (db : LocalDB) : List QueueItem × LocalDB :=
  let items := syncQueueToArray db
  let db' := syncQueueClear db
  (items, db')

/-- The states the database can be in: the empty database and whatever the
functions of `db.js` make of a reachable state. -/
inductive Reachable : LocalDB → Prop
  | empty : Reachable LocalDB.empty
  | saveProducts {db : LocalDB} (products : List Entity) :
      Reachable db → Reachable (saveProducts db products)
  | clearProducts {db : LocalDB} : Reachable db → Reachable (clearProducts db)
  | enqueueSync {db : LocalDB} (kind : String) (payload : Payload) (now : String) :
      Reachable db → Reachable (enqueueSync db kind payload now)
  | drainSyncQueue {db : LocalDB} : Reachable db → Reachable (drainSyncQueue db).2

/-- The invariant of the auto-increment store: keys strictly ascending and all
below the key generator. -/
def QueueOrdered (db : LocalDB) : Prop :=
  db.syncQueue.Pairwise (fun a b => a.id < b.id) ∧ ∀ it ∈ db.syncQueue, it.id < db.nextId

/-- A sequence of `enqueueSync` calls, each with its type, payload and clock value. -/
def enqueueAll (db : LocalDB) (ops : List (String × Payload × String)) : LocalDB :=
  ops.foldl (fun d op => enqueueSync d op.1 op.2.1 op.2.2) db

/-! ## Platform functions used by the client

`atob` and `btoa` are browser functions; they are modelled after the HTML
standard (forgiving-base64 decode, and base64 encode of a binary string). A binary
string is the list of its code units, each below 256. -/

/-- Value of a character of the base64 alphabet. -/
def base64Index (c : Char) : Option Nat :=
  if 'A' ≤ c ∧ c ≤ 'Z' then some (c.toNat - 65)
  else if 'a' ≤ c ∧ c ≤ 'z' then some (c.toNat - 97 + 26)
  else if '0' ≤ c ∧ c ≤ '9' then some (c.toNat - 48 + 52)
  else if c = '+' then some 62
  else if c = '/' then some 63
  else none

/-- Character of the base64 alphabet for a value below 64. -/
def base64Char (n : Nat) : Char :=
  if n < 26 then Char.ofNat (n + 65)
  else if n < 52 then Char.ofNat (n - 26 + 97)
  else if n < 62 then Char.ofNat (n - 52 + 48)
  else if n = 62 then '+'
  else '/'

/-- ASCII whitespace: tab, line feed, form feed, carriage return, space. -/
def isAsciiWhitespace (c : Char) : Bool :=
  c.toNat = 9 || c.toNat = 10 || c.toNat = 12 || c.toNat = 13 || c.toNat = 32

/-- Removes one or two trailing `=` when the length is a multiple of four. -/
def stripPadding (cs : List Char) : List Char :=
  if cs.length % 4 = 0 then
    match cs.reverse with
    | '=' :: '=' :: rest => rest.reverse
    | '=' :: rest => rest.reverse
    | _ => cs
  else cs

/-- Values of the characters of a string, or `none` if one is outside the alphabet. -/
def base64Indices : List Char → Option (List Nat)
  | [] => some []
  | c :: cs =>
    match base64Index c, base64Indices cs with
    | some n, some ns => some (n :: ns)
    | _, _ => none

/-- Bytes of a list of 6-bit values; trailing bits that do not fill a byte are dropped. -/
def decodeGroups : List Nat → List Nat
  | a :: b :: c :: d :: rest =>
    (a * 4 + b / 16) :: ((b % 16) * 16 + c / 4) :: ((c % 4) * 64 + d) :: decodeGroups rest
  | [a, b, c] => [a * 4 + b / 16, (b % 16) * 16 + c / 4]
  | [a, b] => [a * 4 + b / 16]
  | _ => []

/-- `atob(s)`: the decoded binary string, or `none` where `atob` throws
`InvalidCharacterError`. -/
def atob (s : String) : Option (List Nat) :=
  let cs := stripPadding (s.toList.filter (fun c => !isAsciiWhitespace c))
  if cs.length % 4 = 1 then none
  else (base64Indices cs).map decodeGroups

/-- Base64 characters of a list of bytes, with padding. -/
def encodeGroups : List Nat → List Char
  | a :: b :: c :: rest =>
    base64Char (a / 4) :: base64Char ((a % 4) * 16 + b / 16) ::
      base64Char ((b % 16) * 4 + c / 64) :: base64Char (c % 64) :: encodeGroups rest
  | [a, b] => [base64Char (a / 4), base64Char ((a % 4) * 16 + b / 16), base64Char ((b % 16) * 4), '=']
  | [a] => [base64Char (a / 4), base64Char ((a % 4) * 16), '=', '=']
  | [] => []

/-- `btoa(binary)` for a binary string given as its bytes. -/
def btoa (bytes : List Nat) : String := String.mk (encodeGroups bytes)

/-- An HTTP response as far as the client looks at it. -/
structure Response where
  status : Nat
  headers : List (String × String)
  body : String
deriving DecidableEq, Repr

/-- `response.ok`: status in the range 200 to 299. -/
def Response.ok (r : Response) : Bool := decide (200 ≤ r.status) && decide (r.status ≤ 299)

/-- How a `fetch` promise settles: resolved with a response (whatever its status) or
rejected with a network error. -/
inductive FetchOutcome where
  | resolved (response : Response)
  | rejected (message : String)
deriving DecidableEq, Repr

/-- A value a function of the client returns, as far as the claims look at it:
`undefined`, or an object with numeric fields. -/
inductive JsValue where
  | undefined
  | record (fields : List (String × Nat))
deriving DecidableEq, Repr

/-- How the promise of an async function settles. -/
inductive Settled (α : Type) where
  | fulfilled (value : α)
  | raised (message : String)
deriving DecidableEq, Repr

/-! ## Reconciliation (`sync.js`) -/

/-- The ambient state `sync.js` reads: `navigator.onLine`, the global `API_BASE` when
one is defined, and the `agentica_token` entry of `localStorage`. -/
structure SyncEnv where
  onLine : Bool
  apiBase : Option String
  token : Option String
deriving DecidableEq, Repr

/-- Truthiness of an optional string: absent and empty are falsy. -/
def truthy (s : Option String) : Bool :=
  match s with
  | none => false
  | some v => decide (v ≠ "")

/-- `getApiBase()`: `API_BASE` when defined and non-empty, else the local default. -/
def getApiBase (env : SyncEnv) : String :=
  match env.apiBase with
  | some b => if b ≠ "" then b else "http://localhost:3000"
  | none => "http://localhost:3000"

/-- `authHeaders()`: a bearer header when a non-empty token is stored. -/
def authHeaders (token : Option String) : List (String × String) :=
  match token with
  | some t => if t ≠ "" then [("Authorization", "Bearer " ++ t)] else []
  | none => []

/-- The multipart upload request built by `processSyncQueue` and by the wizard: URL,
method, headers, and the single form part `file` (name, media type, bytes). -/
structure UploadRequest where
  url : String
  method : String
  headers : List (String × String)
  fileName : String
  fileType : String
  fileBytes : List Nat
deriving DecidableEq, Repr

/-- What a run of `processSyncQueue` does that can be observed from outside. A
`request` records the queue item it is issued for and, as ghost data, the content of
the `syncQueue` table at the moment it is issued. -/
inductive SyncEvent where
  | logPending (count : Nat)
  | request (itemId : Nat) (req : UploadRequest) (queueAtIssue : List QueueItem)
  | logDone (itemId : Nat)
  | logError (itemId : Nat) (message : String)
deriving DecidableEq, Repr

/-- The request `processSyncQueue` builds from a decoded upload item. -/
def replayRequest (env : SyncEnv) (item : QueueItem) (bytes : List Nat) : UploadRequest :=
  { url := getApiBase env ++ "/api/inventory/upload"
    method := "POST"
    headers := authHeaders env.token
    fileName := if truthy item.payload.fileName then item.payload.fileName.getD "" else "inventory.csv"
    fileType := "text/csv"
    fileBytes := bytes }

/-- The body of the `try` block for one item: the events it produces and whether it
ends normally or throws. `net` gives, for a queue key, how the upload request issued
for that item settles. -/
def replayTry (env : SyncEnv) (net : Nat → FetchOutcome) (db : LocalDB) (item : QueueItem) :
    List SyncEvent × Except String Unit :=
  if item.kind = "upload" && truthy item.payload.fileBase64 then
    match atob (item.payload.fileBase64.getD "") with
    | none => ([], .error "InvalidCharacterError")
    | some bytes =>
      let req := replayRequest env item bytes
      match net item.id with
      | .rejected message => ([.request item.id req db.syncQueue], .error message)
      | .resolved _ => ([.request item.id req db.syncQueue, .logDone item.id], .ok ())
  else ([], .ok ())

/-- One iteration of the loop: the `try` block, and the `catch` that logs and goes on. -/
def replayItem (env : SyncEnv) (net : Nat → FetchOutcome) (db : LocalDB) (item : QueueItem) :
    List SyncEvent :=
  match replayTry env net db item with
  | (events, .ok _) => events
  | (events, .error message) => events ++ [.logError item.id message]

/-- The `for (const item of pending)` loop. -/
def replayLoop (env : SyncEnv) (net : Nat → FetchOutcome) (db : LocalDB) :
    List QueueItem → List SyncEvent
  | [] => []
  | item :: rest => replayItem env net db item ++ replayLoop env net db rest

/-- A finished run of `processSyncQueue`: the database it leaves, what it did, and how
its promise settles. -/
structure SyncRun where
  db : LocalDB
  trace : List SyncEvent
  result : Settled JsValue
deriving DecidableEq, Repr

/-- `processSyncQueue()`. -/
def processSyncQueue (env : SyncEnv) (net : Nat → FetchOutcome) (db : LocalDB) : SyncRun :=
  if !env.onLine then ⟨db, [], .fulfilled .undefined⟩
  else
    let drained := drainSyncQueue db
    let pending := drained.1
    let db' := drained.2
    if pending.length = 0 then ⟨db', [], .fulfilled .undefined⟩
    else ⟨db', .logPending pending.length :: replayLoop env net db' pending, .fulfilled .undefined⟩

/-- The upload requests of a trace, each with the key of its queue item. -/
def requestsOf : List SyncEvent → List (Nat × UploadRequest)
  | [] => []
  | .request itemId req _ :: rest => (itemId, req) :: requestsOf rest
  | _ :: rest => requestsOf rest

/-- Number of `console.error` entries of a trace. -/
def errorCount (trace : List SyncEvent) : Nat :=
  (trace.filter (fun ev => match ev with | .logError _ _ => true | _ => false)).length

/-- Number of "subida completada" entries of a trace. -/
def doneCount (trace : List SyncEvent) : Nat :=
  (trace.filter (fun ev => match ev with | .logDone _ => true | _ => false)).length

/-- The part of an item `processSyncQueue` acts on: the decoded file of an item of
type `upload` whose `fileBase64` is present, non-empty and decodable. -/
def uploadBytes (item : QueueItem) : Option (List Nat) :=
  if item.kind = "upload" && truthy item.payload.fileBase64 then
    atob (item.payload.fileBase64.getD "")
  else none

/-- Whether every upload request of a trace is directly followed by the log entry
that ends the iteration of the same item (completion or error), so that no request
is issued while another is in flight. -/
def settlesInTurn : List SyncEvent → Bool
  | [] => true
  | .request itemId _ _ :: rest =>
    match rest with
    | .logDone itemId' :: rest' => decide (itemId = itemId') && settlesInTurn rest'
    | .logError itemId' _ :: rest' => decide (itemId = itemId') && settlesInTurn rest'
    | _ => false
  | _ :: rest => settlesInTurn rest

/-! ## Import wizard (`wizard.js`) -/

/-- The selected `File`: its name, media type and content. -/
structure File where
  name : String
  type : String
  bytes : List Nat
deriving DecidableEq, Repr

/-- The call `showResult(body, success)` as far as it depends on the upload: the
success flag and `body.message`. -/
structure Shown where
  success : Bool
  message : String
deriving DecidableEq, Repr

/-- How the wizard's `fetch` and the `res.json()` after it go: the fetch is rejected,
or the body is not JSON, or the response has a status and a body with optional
`error` and `message` fields. -/
inductive UploadReply where
  | networkError (message : String)
  | notJson (status : Nat) (message : String)
  | json (status : Nat) (error : Option String) (message : Option String)
deriving DecidableEq, Repr

/-- A finished run of the confirm handler: the database it leaves, the requests it
issued and what it shows. -/
structure WizardRun where
  db : LocalDB
  requests : List UploadRequest
  shown : Shown
deriving DecidableEq, Repr

/-- The click handler of `nextBtn2` (step 2 to 3) together with the `onload` callback
it installs. `onLine` is `navigator.onLine`, `now` the clock read by `enqueueSync`,
`reply` the way the upload goes if it is attempted. Reading the selected file and
writing to IndexedDB are taken to succeed. -/
def nextBtn2Click (onLine : Bool) (token : Option String) (selectedFile : File) (now : String)
    (reply : UploadReply) (db : LocalDB) : WizardRun :=
  if !onLine then
    { db := enqueueSync db "upload"
        ⟨some (btoa selectedFile.bytes), some selectedFile.name, []⟩ now
      requests := []
      shown := ⟨false, "Sin conexión. La subida se procesará automáticamente cuando haya internet."⟩ }
  else
    let req : UploadRequest :=
      { url := "http://localhost:3000/api/inventory/upload"
        method := "POST"
        headers := authHeaders token
        fileName := selectedFile.name
        fileType := selectedFile.type
        fileBytes := selectedFile.bytes }
    match reply with
    | .networkError message => ⟨db, [req], ⟨false, message⟩⟩
    | .notJson _ message => ⟨db, [req], ⟨false, message⟩⟩
    | .json status error message =>
      if 200 ≤ status ∧ status ≤ 299 then ⟨db, [req], ⟨true, message.getD ""⟩⟩
      else ⟨db, [req], ⟨false, if truthy error then error.getD "" else "HTTP " ++ toString status⟩⟩

/-! ## Service worker (`sw.js`) -/

/-- An intercepted request: URL, method and mode. -/
structure Request where
  url : String
  method : String
  mode : String
deriving DecidableEq, Repr

/-- The cache `agentica-v1`: stored responses keyed by request URL, oldest first. -/
abbrev Cache := List (String × Response)

/-- `caches.match(request)`: only a GET request matches, by URL. -/
def cacheMatch (cache : Cache) (request : Request) : Option Response :=
  if request.method = "GET" then
    (cache.find? (fun entry => decide (entry.1 = request.url))).map (fun entry => entry.2)
  else none

/-- The parts of a header value between its commas. -/
def splitOnComma : List Char → List (List Char)
  | [] => [[]]
  | c :: cs =>
    if c = ',' then [] :: splitOnComma cs
    else
      match splitOnComma cs with
      | [] => [[c]]
      | first :: rest => (c :: first) :: rest

/-- The values listed in a header value: its parts between commas, without the tabs
and spaces around them. -/
def fieldValues (value : String) : List String :=
  (splitOnComma value.toList).map (fun part =>
    String.mk ((part.dropWhile (fun c => c.toNat = 9 || c.toNat = 32)).reverse.dropWhile
      (fun c => c.toNat = 9 || c.toNat = 32)).reverse)

/-- Whether a response has a `Vary` header that lists `*`. -/
def variesOnEverything (response : Response) : Bool :=
  response.headers.any (fun header =>
    decide (String.mk (header.1.toList.map Char.toLower) = "vary") &&
      (fieldValues header.2).contains "*")

/-- Whether the Cache API carries out `cache.put(request, response)`: it rejects a
request that is not a GET of an `http` or `https` URL, a response with status 206 and
a response whose `Vary` header lists `*`. -/
def putAccepted (request : Request) (response : Response) : Bool :=
  ("http://".toList.isPrefixOf request.url.toList ||
    "https://".toList.isPrefixOf request.url.toList) &&
  decide (request.method = "GET") && decide (response.status ≠ 206) &&
  !variesOnEverything response

/-- `cache.put(request, response)`, started and not awaited: when the put is accepted
the entries matching the request are removed and the new pair is stored; when it is
rejected the rejection goes unobserved and the cache stays as it is. -/
def cachePut (cache : Cache) (request : Request) (response : Response) : Cache :=
  if putAccepted request response then
    cache.filter (fun entry => !decide (entry.1 = request.url)) ++ [(request.url, response)]
  else cache

/-- The synthesized response of `networkFirst` when there is neither network nor
cache entry. -/
def offlineResponse : Response :=
  ⟨503, [("Content-Type", "application/json")],
    "\x7b\"error\":\"Sin conexión. Modo offline.\"\x7d"⟩

/-- `networkFirst(request)`: `outcome` is how `fetch(request.clone())` settles; the
result is the response returned and the cache once the `cache.put` the function
starts (without awaiting it) has settled. -/
def networkFirst (cache : Cache) (request : Request) (outcome : FetchOutcome) :
    Response × Cache :=
  match outcome with
  | .resolved response =>
    if response.ok && request.method = "GET" then
      (response, cachePut cache request response)
    else (response, cache)
  | .rejected _ =>
    match cacheMatch cache request with
    | some cached => (cached, cache)
    | none => (offlineResponse, cache)

/-- A run of `networkFirst` calls on one request, one call per network outcome:
the responses returned, in call order, and the cache after the last call. -/
def networkFirstCalls (cache : Cache) (request : Request) :
    List FetchOutcome → List Response × Cache
  | [] => ([], cache)
  | outcome :: rest =>
    let step := networkFirst cache request outcome
    let tail := networkFirstCalls step.2 request rest
    (step.1 :: tail.1, tail.2)

/-- What came of answering a request: how the promise handed to `respondWith`
settles, the cache afterwards, and the network requests that were issued. -/
structure StrategyRun where
  result : Settled Response
  cache : Cache
  fetches : List Request
deriving DecidableEq, Repr

/-- The response `new Response('Offline', { status: 503 })` of `cacheFirst`. -/
def offlinePlaceholder : Response :=
  ⟨503, [("Content-Type", "text/plain;charset=UTF-8")], "Offline"⟩

/-- `cacheFirst(request)`: `origin` is the origin against which `'/index.html'` is
resolved, `outcome` how `fetch(request.clone())` settles if it is called. The cache
of the result is the cache once the `cache.put` the function starts has settled. -/
def cacheFirst (origin : String) (cache : Cache) (request : Request) (outcome : FetchOutcome) :
    StrategyRun :=
  match cacheMatch cache request with
  | some cached => ⟨.fulfilled cached, cache, []⟩
  | none =>
    match outcome with
    | .resolved response =>
      if response.ok then ⟨.fulfilled response, cachePut cache request response, [request]⟩
      else ⟨.fulfilled response, cache, [request]⟩
    | .rejected _ =>
      match cacheMatch cache ⟨origin ++ "/index.html", "GET", "cors"⟩ with
      | some fallback => ⟨.fulfilled fallback, cache, [request]⟩
      | none => ⟨.fulfilled offlinePlaceholder, cache, [request]⟩

/-- `s.startsWith(pre)`. -/
def startsWith (s pre : String) : Bool := pre.toList.isPrefixOf s.toList

/-- The two strategies of the service worker. -/
inductive Strategy where
  | networkFirst
  | cacheFirst
deriving DecidableEq, Repr

/-- An answer of the fetch listener: the strategy whose promise was handed to
`event.respondWith`, and what came of it. -/
structure Answer where
  strategy : Strategy
  run : StrategyRun
deriving DecidableEq, Repr

/-- The `fetch` event listener. `pathname` gives `new URL(u).pathname` for a URL `u`;
the result is `none` when the listener returns without calling `respondWith`. -/
def fetchListener (pathname : String → String) (origin : String) (cache : Cache)
    (request : Request) (outcome : FetchOutcome) : Option Answer :=
  let path := pathname request.url
  if !startsWith request.url "http" then none
  else if startsWith path "/api/" then
    let step := networkFirst cache request outcome
    some ⟨.networkFirst, ⟨.fulfilled step.1, step.2, [request]⟩⟩
  else some ⟨.cacheFirst, cacheFirst origin cache request outcome⟩

/-- Path of a serialized `http` or `https` URL: what follows the authority, up to the
query or fragment; `/` when it is empty. -/
def urlPathname (url : String) : String :=
  let afterScheme := (url.toList.dropWhile (fun c => c ≠ ':')).drop 3
  let afterAuthority := afterScheme.dropWhile (fun c => c ≠ '/' && c ≠ '?' && c ≠ '#')
  let path := afterAuthority.takeWhile (fun c => c ≠ '?' && c ≠ '#')
  if path.isEmpty then "/" else String.mk path

/-! ## Local store: queries (`db.js`) -/

/-- White space and line terminators of ECMAScript, the characters `trim` strips. -/
def isJsWhitespace (c : Char) : Bool :=
  c.toNat = 9 || c.toNat = 10 || c.toNat = 11 || c.toNat = 12 || c.toNat = 13 ||
  c.toNat = 32 || c.toNat = 160 || c.toNat = 5760 ||
  (decide (8192 ≤ c.toNat) && decide (c.toNat ≤ 8202)) ||
  c.toNat = 8232 || c.toNat = 8233 || c.toNat = 8239 || c.toNat = 8287 ||
  c.toNat = 12288 || c.toNat = 65279

/-- `s.trim()`. -/
def trim (s : String) : String :=
  String.mk ((s.toList.dropWhile isJsWhitespace).reverse.dropWhile isJsWhitespace).reverse

/-- Whether `needle` occurs in `hay` as a contiguous run. -/
def includesChars : List Char → List Char → Bool
  | [], needle => needle.isEmpty
  | c :: cs, needle => needle.isPrefixOf (c :: cs) || includesChars cs needle

/-- `hay.includes(needle)`. -/
def includes (hay needle : String) : Bool := includesChars hay.toList needle.toList

/-- The filter callback of `getLocalProducts` for an already trimmed and lower-cased
`term`. `toLowerCase` is the platform's `String.prototype.toLowerCase`. -/
def matchesTerm (toLowerCase : String → String) (term : String) (p : Entity) : Bool :=
  (truthy p.title && includes (toLowerCase (p.title.getD "")) term) ||
  (truthy p.sku && includes (toLowerCase (p.sku.getD "")) term)

/-- `getLocalProducts(searchTerm, limit = 50)`: the rows returned, and the database,
which the function only reads. An absent argument is `none`. -/
def getLocalProducts (toLowerCase : String → String) (db : LocalDB)
    (searchTerm : Option String) (limit : Option Nat) : List Entity × LocalDB :=
  let limit := limit.getD 50
  if truthy searchTerm && truthy (some (trim (searchTerm.getD ""))) then
    let term := toLowerCase (trim (searchTerm.getD ""))
    ((db.products.filter (matchesTerm toLowerCase term)).take limit, db)
  else (db.products.take limit, db)

/-- Lower-casing of the letters `A` to `Z`, every other character kept: what
`toLowerCase` does on strings without other cased characters. -/
def asciiLower (s : String) : String := String.mk (s.toList.map Char.toLower)

/-- A string occurs in another one case-insensitively: the lower-cased term is a
contiguous part of the lower-cased value. -/
def ContainsIgnoringCase (toLowerCase : String → String) (value term : String) : Prop :=
  ∃ pre post, (toLowerCase value).toList = pre ++ (toLowerCase term).toList ++ post

/-- The title or the sku of an entity contains the term case-insensitively. -/
def TitleOrSkuContains (toLowerCase : String → String) (term : String) (p : Entity) : Prop :=
  (∃ title, p.title = some title ∧ ContainsIgnoringCase toLowerCase title term) ∨
  (∃ sku, p.sku = some sku ∧ ContainsIgnoringCase toLowerCase sku term)

/-! ## Local store: histories and interleavings -/

/-- A call of one of the writing functions of `db.js`. -/
inductive Op where
  | saveProducts (products : List Entity)
  | clearProducts
  | enqueueSync (kind : String) (payload : Payload) (now : String)
  | drainSyncQueue
deriving DecidableEq, Repr

/-- The database after one call. -/
def applyOp (db : LocalDB) : Op → LocalDB
  | .saveProducts products => saveProducts db products
  | .clearProducts => clearProducts db
  | .enqueueSync kind payload now => enqueueSync db kind payload now
  | .drainSyncQueue => (drainSyncQueue db).2

/-- The database after a sequence of calls. -/
def runOps (db : LocalDB) (ops : List Op) : LocalDB := ops.foldl applyOp db

/-- The rows of the sync queue that a step has added: those in the queue afterwards
that were not there before. -/
def newItems (before after : LocalDB) : List QueueItem :=
  after.syncQueue.filter (fun it => !before.syncQueue.contains it)

/-- Every row that was added to the sync queue in the course of a sequence of calls,
whether or not it is still there at the end. -/
def everEnqueued : LocalDB → List Op → List QueueItem
  | _, [] => []
  | db, op :: rest => newItems db (applyOp db op) ++ everEnqueued (applyOp db op) rest

/-- `drainSyncQueue()` with the `enqueueSync` calls of other tasks that IndexedDB
serves between its two awaited operations, `toArray()` and `clear()`: the rows
returned and the database when the drain completes. -/
def drainSyncQueueInterleaved (db : LocalDB) (between : List (String × Payload × String)) :
    List QueueItem × LocalDB :=
  let items := syncQueueToArray db
  let db1 := enqueueAll db between
  let db2 := syncQueueClear db1
  (items, db2)

/-- The strict key order of the `products` table. -/
def ProductsOrdered (db : LocalDB) : Prop :=
  db.products.Pairwise (fun a b => a.id < b.id)

/-! ## Triggers of the reconciliation (`sync.js`, `sw.js`) -/

/-- `saveProducts(products)` for any argument: `none` stands for a value that is not
an array, for which the function returns at once. -/
def saveProductsOf (db : LocalDB) (products : Option (List Entity)) : LocalDB :=
  match products with
  | none => db
  | some array => saveProducts db array

/-- How the `fetch` of `syncProducts` and the `res.json()` after it go: the fetch is
rejected, or the body of an ok response is not JSON, or the response has a status and
a body whose `products` field is an array or something else (`none`). -/
inductive InventoryReply where
  | networkError (message : String)
  | notJson (status : Nat)
  | json (status : Nat) (products : Option (List Entity))
deriving DecidableEq, Repr

/-- A finished run of `syncProducts`: the database it leaves and the URLs it
requested. -/
structure RefreshRun where
  db : LocalDB
  requests : List String
deriving DecidableEq, Repr

/-- `syncProducts(limit = 200)`: one GET of the product list; the products of an ok
response, when there are any, go to `saveProducts`; every failure is caught. -/
def syncProducts (env : SyncEnv) (limit : Nat) (reply : InventoryReply) (db : LocalDB) :
    RefreshRun :=
  let url := getApiBase env ++ "/api/inventory?limit=" ++ toString limit
  match reply with
  | .networkError _ => ⟨db, [url]⟩
  | .notJson _ => ⟨db, [url]⟩
  | .json status products =>
    if 200 ≤ status ∧ status ≤ 299 then
      match products with
      | some array => if array.length > 0 then ⟨saveProducts db array, [url]⟩ else ⟨db, [url]⟩
      | none => ⟨db, [url]⟩
    else ⟨db, [url]⟩

/-- The period of the interval timer, in milliseconds. -/
def SYNC_INTERVAL_MS : Nat := 60000

/-- The two async functions a trigger can start. -/
inductive Call where
  | syncProducts
  | processSyncQueue
deriving DecidableEq, Repr

/-- The listener of the `online` event: the calls it makes, in order. -/
def onlineListener : List Call := [.syncProducts, .processSyncQueue]

/-- The callback of `setInterval`: the calls it makes. -/
def intervalCallback (env : SyncEnv) : List Call :=
  if env.onLine && truthy env.token then [.syncProducts] else []

/-- The triggers of `sync.js`. -/
inductive Trigger where
  | online
  | tick
deriving DecidableEq, Repr

/-- The calls a trigger makes. -/
def startedBy (env : SyncEnv) : Trigger → List Call
  | .online => onlineListener
  | .tick => intervalCallback env

/-- The page as the triggers see it: as ghost data, the calls that were started and
have not completed, and the URLs requested so far. `syncProducts` issues its request
when it is called; `processSyncQueue` awaits the drain first. -/
structure Scheduler where
  running : List Call
  requested : List String
deriving DecidableEq, Repr

/-- A trigger arrives: its handler makes its calls. -/
def Scheduler.fire (env : SyncEnv) (s : Scheduler) (t : Trigger) : Scheduler :=
  { running := s.running ++ startedBy env t
    requested := s.requested ++
      ((startedBy env t).filter (fun c => decide (c = Call.syncProducts))).map
        (fun _ => getApiBase env ++ "/api/inventory?limit=200") }

/-- What the calls of a handler have done once they have all completed. -/
structure TriggerRun where
  db : LocalDB
  refreshes : List String
  trace : List SyncEvent
deriving DecidableEq, Repr

/-- The calls of a handler carried out one after the other; they write to different
tables. `reply` is how the product list request goes, `net` how the uploads go. -/
def runCalls (env : SyncEnv) (reply : InventoryReply) (net : Nat → FetchOutcome) :
    List Call → LocalDB → TriggerRun
  | [], db => ⟨db, [], []⟩
  | .syncProducts :: rest, db =>
    let run := syncProducts env 200 reply db
    let tail := runCalls env reply net rest run.db
    ⟨tail.db, run.requests ++ tail.refreshes, tail.trace⟩
  | .processSyncQueue :: rest, db =>
    let run := processSyncQueue env net db
    let tail := runCalls env reply net rest run.db
    ⟨tail.db, tail.refreshes, run.trace ++ tail.trace⟩

/-- One periodic tick, carried out. -/
def onTick (env : SyncEnv) (reply : InventoryReply) (net : Nat → FetchOutcome) (db : LocalDB) :
    TriggerRun :=
  runCalls env reply net (intervalCallback env) db

/-- A message posted by the service worker to a client. -/
structure ClientMessage where
  type : String
  tag : String
deriving DecidableEq, Repr

/-- What the `sync` listener of the service worker has done: the messages posted, the
database and the requests issued. -/
structure WakeUpRun where
  messages : List (Nat × ClientMessage)
  db : LocalDB
  requests : List UploadRequest
deriving DecidableEq, Repr

/-- The `sync` event listener of `sw.js`: for the tag `sync-inventory` it posts a
`BACKGROUND_SYNC` message to every client that `clients.matchAll()` returns; it reads
no table and issues no request. No script of the page registers a listener for
messages of the service worker. -/
def syncListener (tag : String) (clients : List Nat) (db : LocalDB) : WakeUpRun :=
  if tag = "sync-inventory" then
    ⟨clients.map (fun client => (client, ⟨"BACKGROUND_SYNC", "sync-inventory"⟩)), db, []⟩
  else ⟨[], db, []⟩

/-! ## Server: authentication (`authMiddleware.js`, `inventory.routes.js`) -/

/-- How `jwt.verify(token, JWT_SECRET)` ends: with the decoded payload, with a
`TokenExpiredError`, or with another error. -/
inductive VerifyOutcome where
  | decoded (payload : String)
  | expired
  | invalid
deriving DecidableEq, Repr

/-- What `authMiddleware` has done: the status and error text it responded with, if
it responded, whether it called `next`, and `req.user`. -/
structure AuthResult where
  status : Option Nat
  error : Option String
  nextCalled : Bool
  user : Option String
deriving DecidableEq, Repr

/-- `authMiddleware(req, res, next)`; `authorization` is `req.headers['authorization']`. -/
def authMiddleware (verify : String → VerifyOutcome) (authorization : Option String) :
    AuthResult :=
  if !truthy authorization || !startsWith (authorization.getD "") "Bearer " then
    ⟨some 401, some "Token de autenticación requerido", false, none⟩
  else
    let token := String.mk ((authorization.getD "").toList.drop 7)
    match verify token with
    | .decoded payload => ⟨none, none, true, some payload⟩
    | .expired => ⟨some 401, some "Token expirado", false, none⟩
    | .invalid => ⟨some 401, some "Token inválido", false, none⟩

/-- A route of a router: method, path and the handlers in the order given. -/
structure Route where
  method : String
  path : String
  handlers : List String
deriving DecidableEq, Repr

/-- The routes of `inventory.routes.js`. -/
def inventoryRoutes : List Route :=
  [⟨"POST", "/upload", ["auth", "controller.upload.single('file')", "controller.uploadCSV"]⟩,
   ⟨"GET", "/", ["auth", "controller.listProducts"]⟩,
   ⟨"GET", "/:id", ["auth", "controller.getProduct"]⟩,
   ⟨"PUT", "/:id", ["auth", "controller.updateProduct"]⟩,
   ⟨"DELETE", "/:id", ["auth", "controller.deleteProduct"]⟩]

/-! ## Server: inventory service (`inventoryService.js`) -/

/-- Value of a run of decimal digits read from the left, on top of `acc`. -/
def digitsValue (acc : Nat) : List Char → Nat
  | [] => acc
  | c :: cs => digitsValue (acc * 10 + (c.toNat - 48)) cs

/-- `parseInt(s, 10)`: leading white space is skipped, a sign is read, then the longest
run of decimal digits; `none` is `NaN`. The value is exact; JavaScript rounds it to a
double beyond 2^53. -/
def parseInt10 (s : String) : Option Int :=
  let cs := s.toList.dropWhile isJsWhitespace
  let negative := cs.head? = some '-'
  let unsigned := if cs.head? = some '-' ∨ cs.head? = some '+' then cs.drop 1 else cs
  let digits := unsigned.takeWhile Char.isDigit
  if digits.isEmpty then none
  else if negative then some (-(digitsValue 0 digits : Int))
  else some (digitsValue 0 digits : Int)

/-- `parseInt(x, 10) || fallback` for an argument that is a string: `NaN` and `0` are
falsy. -/
def parseIntOr (s : String) (fallback : Int) : Int :=
  match parseInt10 s with
  | none => fallback
  | some n => if n = 0 then fallback else n

/-- The first two statements of `getProducts(search, limit = 20, offset = 0)`: the
limit and the offset that are passed to the query. `none` is a missing argument, for
which the default (the number 20, the number 0) is what `parseInt` reads. -/
def getProductsPage (limit offset : Option String) : Int × Int :=
  (min (parseIntOr (limit.getD "20") 20) 100, max (parseIntOr (offset.getD "0") 0) 0)

/-- `safeInt(val)` for a cell of a CSV row; a missing cell is `undefined`. -/
def safeInt (val : Option String) : Int :=
  match val with
  | none => 0
  | some s => (parseInt10 s).getD 0

/-- A row as `csv-parser` delivers it: the cells by column header. -/
abbrev CsvRow := List (String × String)

/-- `row[column]`: the cell under a header, `none` when the row has no such column; of
two columns with the same header the later one counts. -/
def CsvRow.get (row : CsvRow) (column : String) : Option String :=
  (row.reverse.find? (fun entry => decide (entry.1 = column))).map (fun entry => entry.2)

/-- `(row[column] || '').trim() || null`. -/
def cell (row : CsvRow) (column : String) : Option String :=
  if trim ((row.get column).getD "") = "" then none
  else some (trim ((row.get column).getD ""))

/-- The parameters `$1` to `$17` of the upsert statement. -/
structure ProductParams where
  handle : Option String
  title : String
  sku : Option String
  description : Option String
  location : Option String
  option1_name : Option String
  option1_value : Option String
  option2_name : Option String
  option2_value : Option String
  option3_name : Option String
  option3_value : Option String
  incoming : Int
  unavailable : Int
  committed : Int
  available : Int
  on_hand : Int
  price : Option Rat
deriving DecidableEq, Repr

/-- The array `params` built from a row whose trimmed title is `title`. `safeDecimal`
is the function of that name, which rests on `parseFloat`. -/
def paramsOf (safeDecimal : Option String → Option Rat) (row : CsvRow) (title : String) :
    ProductParams :=
  { handle := cell row "Handle"
    title := title
    sku := cell row "Variant SKU"
    description := cell row "Body (HTML)"
    location := cell row "Location"
    option1_name := cell row "Option1 Name"
    option1_value := cell row "Option1 Value"
    option2_name := cell row "Option2 Name"
    option2_value := cell row "Option2 Value"
    option3_name := cell row "Option3 Name"
    option3_value := cell row "Option3 Value"
    incoming := safeInt (row.get "Incoming")
    unavailable := safeInt (row.get "Unavailable")
    committed := safeInt (row.get "Committed")
    available := safeInt (row.get "Available")
    on_hand := safeInt (row.get "On hand")
    price := safeDecimal (row.get "Variant Price") }

/-- How `pool.query` of the upsert ends: one row returned with `inserted` true, or with
`inserted` false, or an error thrown. -/
inductive QueryOutcome where
  | inserted
  | updated
  | failed (message : String)
deriving DecidableEq, Repr

/-- The `stats` object of `processCSV`. -/
structure Stats where
  inserted : Nat
  updated : Nat
  errors : List String
deriving DecidableEq, Repr

/-- The state of the loop of `processCSV`: the stats so far, the database, and as ghost
data the parameters of the queries issued. -/
structure CsvRun (σ : Type) where
  stats : Stats
  db : σ
  queries : List ProductParams

/-- One iteration of the loop over the rows. `exec` is the database carrying out the
upsert statement with the given parameters. -/
def processRow {σ : Type} (safeDecimal : Option String → Option Rat)
    (exec : σ → ProductParams → σ × QueryOutcome) (acc : CsvRun σ) (row : CsvRow) : CsvRun σ :=
  let sku := cell row "Variant SKU"
  let title := trim ((row.get "Title").getD "")
  if title = "" then
    { acc with stats := { acc.stats with errors := acc.stats.errors ++
        ["Fila sin título omitida (SKU: " ++ sku.getD "N/A" ++ ")"] } }
  else
    let params := paramsOf safeDecimal row title
    if sku.isNone && (cell row "Handle").isNone then
      { acc with stats := { acc.stats with errors := acc.stats.errors ++
          ["Fila sin SKU ni handle omitida (título: " ++ title ++ ")"] } }
    else
      match exec acc.db params with
      | (db, .inserted) =>
        { stats := { acc.stats with inserted := acc.stats.inserted + 1 }
          db := db, queries := acc.queries ++ [params] }
      | (db, .updated) =>
        { stats := { acc.stats with updated := acc.stats.updated + 1 }
          db := db, queries := acc.queries ++ [params] }
      | (db, .failed message) =>
        { stats := { acc.stats with errors := acc.stats.errors ++
            ["Error en fila (" ++
              (if truthy (row.get "Variant SKU") then (row.get "Variant SKU").getD "" else "?")
              ++ "): " ++ message] }
          db := db, queries := acc.queries ++ [params] }

/-- What `processCSV` has done: how its promise settles, the database afterwards and
the queries issued. -/
structure CsvResult (σ : Type) where
  result : Settled Stats
  db : σ
  queries : List ProductParams

/-- `processCSV(fileData)`: `parsed` is what the CSV stream delivers, an error or the
rows; the rows are then handled one after the other. -/
def processCSV {σ : Type} (safeDecimal : Option String → Option Rat)
    (exec : σ → ProductParams → σ × QueryOutcome) (parsed : Except String (List CsvRow))
    (db : σ) : CsvResult σ :=
  match parsed with
  | .error message => ⟨.raised message, db, []⟩
  | .ok rows =>
    let run := rows.foldl (processRow safeDecimal exec) ⟨⟨0, 0, []⟩, db, []⟩
    ⟨.fulfilled run.stats, run.db, run.queries⟩

/-- A row that reaches the query: its title is not blank and it has a SKU or a
handle. -/
def rowIsValid (row : CsvRow) : Bool :=
  decide (trim ((row.get "Title").getD "") ≠ "") &&
    ((cell row "Variant SKU").isSome || (cell row "Handle").isSome)

/-- A row of the `products` table: the generated id and the columns written by the
upsert; the time stamps are left out. -/
structure ProductRow where
  id : Nat
  data : ProductParams
deriving DecidableEq, Repr

/-- The `products` table as the upsert statement of `processCSV` sees it, with the
generator of its ids. The schema is not among the sources; the table is taken to have
the one unique index the statement names, the partial unique index on `sku` where
`sku` is not null. -/
structure ServerDB where
  rows : List ProductRow
  nextId : Nat
deriving DecidableEq, Repr

/-- The statement `INSERT ... ON CONFLICT (sku) WHERE sku IS NOT NULL DO UPDATE SET ...
RETURNING (xmax = 0) AS inserted`: a row with the same non-null sku is overwritten in
all the columns listed, otherwise a new row is inserted. -/
def pgUpsert (db : ServerDB) (p : ProductParams) : ServerDB × QueryOutcome :=
  match p.sku with
  | some sku =>
    if db.rows.any (fun r => decide (r.data.sku = some sku)) then
      (⟨db.rows.map (fun r => if r.data.sku = some sku then ⟨r.id, p⟩ else r), db.nextId⟩,
        .updated)
    else ({ rows := db.rows ++ [⟨db.nextId, p⟩], nextId := db.nextId + 1 }, .inserted)
  | none => ({ rows := db.rows ++ [⟨db.nextId, p⟩], nextId := db.nextId + 1 }, .inserted)

/-- The decimal conversion for cells that are missing or hold an integer literal, on
which `safeDecimal` gives `null` and the integer. -/
def safeDecimalOfInteger (val : Option String) : Option Rat :=
  match val with
  | none => none
  | some s => (parseInt10 s).map (fun n => (n : Rat))

/-! ## Base64: the encoding taken apart -/

/-- The 6-bit values that `btoa` encodes a list of bytes into, padding aside. -/
def sextets : List Nat → List Nat
  | a :: b :: c :: rest =>
    (a / 4) :: ((a % 4) * 16 + b / 16) :: ((b % 16) * 4 + c / 64) :: (c % 64) :: sextets rest
  | [a, b] => [a / 4, (a % 4) * 16 + b / 16, (b % 16) * 4]
  | [a] => [a / 4, (a % 4) * 16]
  | [] => []

/-- The padding `btoa` appends for a list of bytes. -/
def padding : List Nat → List Char
  | _ :: _ :: _ :: rest => padding rest
  | [_, _] => ['=']
  | [_] => ['=', '=']
  | [] => []

/-! ## Lemmas on the local store -/

theorem getProduct_putProduct (table : List Entity) (e : Entity) (k : String) :
    getProduct (putProduct table e) k = if e.id = k then some e else getProduct table k := by
  induction table with
  | nil =>
    by_cases hk : e.id = k <;> simp [putProduct, getProduct, hk]
  | cons x xs ih =>
    simp only [getProduct] at ih
    simp only [getProduct, putProduct]
    by_cases hk : e.id = k
    · rw [if_pos hk]
      split_ifs with h1 h2
      · simp [List.find?_cons, hk]
      · simp [List.find?_cons, hk]
      · have hx : ¬ x.id = k := fun h => h1 (hk.trans h.symm)
        rw [List.find?_cons, ih, if_pos hk]
        simp [hx]
    · rw [if_neg hk]
      split_ifs with h1 h2
      · have hx : ¬ x.id = k := fun h => hk (h1.trans h)
        simp [List.find?_cons, hk, hx]
      · simp [List.find?_cons, hk]
      · rw [List.find?_cons, List.find?_cons, ih, if_neg hk]

theorem saveProducts_products (db : LocalDB) (products : List Entity) :
    (saveProducts db products).products = bulkPut db.products products := by
  unfold saveProducts
  split_ifs with h
  · have : products = [] := List.length_eq_zero.mp h
    subst this
    rfl
  · rfl

theorem foldl_saveProducts_products (calls : List (List Entity)) (db : LocalDB) :
    (calls.foldl saveProducts db).products = bulkPut db.products calls.flatten := by
  induction calls generalizing db with
  | nil => rfl
  | cons c cs ih =>
    rw [List.foldl_cons, ih, saveProducts_products, List.flatten_cons]
    simp [bulkPut, List.foldl_append]

theorem getProduct_bulkPut_of_absent (post : List Entity) (table : List Entity) (k : String)
    (h : ∀ x ∈ post, x.id ≠ k) : getProduct (bulkPut table post) k = getProduct table k := by
  induction post generalizing table with
  | nil => rfl
  | cons x xs ih =>
    have hx : ¬ x.id = k := h x (List.mem_cons_self _ _)
    have hxs : ∀ y ∈ xs, y.id ≠ k := fun y hy => h y (List.mem_cons_of_mem _ hy)
    show getProduct (bulkPut (putProduct table x) xs) k = _
    rw [ih _ hxs, getProduct_putProduct, if_neg hx]

theorem insertItem_of_lt (items : List QueueItem) (it : QueueItem)
    (h : ∀ x ∈ items, x.id < it.id) : insertItem items it = items ++ [it] := by
  induction items with
  | nil => rfl
  | cons x xs ih =>
    have hx : ¬ it.id < x.id := Nat.lt_asymm (h x (List.mem_cons_self _ _))
    have hxs : ∀ y ∈ xs, y.id < it.id := fun y hy => h y (List.mem_cons_of_mem _ hy)
    simp only [insertItem, if_neg hx, ih hxs, List.cons_append]

theorem enqueueSync_syncQueue (db : LocalDB) (hq : QueueOrdered db)
    (kind : String) (payload : Payload) (now : String) :
    (enqueueSync db kind payload now).syncQueue
      = db.syncQueue ++ [⟨db.nextId, kind, payload, now⟩] :=
  insertItem_of_lt db.syncQueue ⟨db.nextId, kind, payload, now⟩ hq.2

theorem queueOrdered_enqueueSync (db : LocalDB) (hq : QueueOrdered db)
    (kind : String) (payload : Payload) (now : String) :
    QueueOrdered (enqueueSync db kind payload now) := by
  have hs := enqueueSync_syncQueue db hq kind payload now
  refine ⟨?_, ?_⟩
  · rw [hs, List.pairwise_append]
    refine ⟨hq.1, List.pairwise_singleton _ _, ?_⟩
    intro a ha b hb
    rw [List.mem_singleton] at hb
    subst hb
    exact hq.2 a ha
  · intro it hit
    rw [hs, List.mem_append, List.mem_singleton] at hit
    show it.id < db.nextId + 1
    rcases hit with hit | hit
    · exact Nat.lt_succ_of_lt (hq.2 it hit)
    · subst hit
      exact Nat.lt_succ_self _

theorem queueOrdered_of_reachable {db : LocalDB} (h : Reachable db) : QueueOrdered db := by
  induction h with
  | empty => exact ⟨List.Pairwise.nil, fun _ hit => absurd hit (List.not_mem_nil _)⟩
  | saveProducts products _ ih =>
    unfold saveProducts
    split_ifs
    · exact ih
    · exact ih
  | clearProducts _ ih => exact ih
  | enqueueSync kind payload now _ ih => exact queueOrdered_enqueueSync _ ih kind payload now
  | drainSyncQueue _ ih =>
    exact ⟨List.Pairwise.nil, fun _ hit => absurd hit (List.not_mem_nil _)⟩

theorem enqueueAll_spec (ops : List (String × Payload × String)) (db : LocalDB)
    (hq : QueueOrdered db) :
    QueueOrdered (enqueueAll db ops) ∧
    (enqueueAll db ops).syncQueue.map (fun it => (it.kind, it.payload, it.createdAt))
      = db.syncQueue.map (fun it => (it.kind, it.payload, it.createdAt)) ++ ops := by
  induction ops generalizing db with
  | nil => exact ⟨hq, by simp [enqueueAll]⟩
  | cons op rest ih =>
    have hq' := queueOrdered_enqueueSync db hq op.1 op.2.1 op.2.2
    have h := ih (enqueueSync db op.1 op.2.1 op.2.2) hq'
    refine ⟨h.1, ?_⟩
    have hs := enqueueSync_syncQueue db hq op.1 op.2.1 op.2.2
    show List.map _ (enqueueAll (enqueueSync db op.1 op.2.1 op.2.2) rest).syncQueue = _
    rw [h.2, hs]
    simp

/-! ## Lemmas on the replay loop -/

theorem replayItem_of_not_upload (env : SyncEnv) (net : Nat → FetchOutcome) (db : LocalDB)
    (item : QueueItem) (h : (item.kind = "upload" && truthy item.payload.fileBase64) = false) :
    replayItem env net db item = [] := by
  simp only [replayItem, replayTry, h]
  rfl

theorem replayItem_of_undecodable (env : SyncEnv) (net : Nat → FetchOutcome) (db : LocalDB)
    (item : QueueItem) (h : (item.kind = "upload" && truthy item.payload.fileBase64) = true)
    (ha : atob (item.payload.fileBase64.getD "") = none) :
    replayItem env net db item = [.logError item.id "InvalidCharacterError"] := by
  simp only [replayItem, replayTry, h, ha]
  rfl

theorem replayItem_of_rejected (env : SyncEnv) (net : Nat → FetchOutcome) (db : LocalDB)
    (item : QueueItem) (bytes : List Nat) (message : String)
    (h : (item.kind = "upload" && truthy item.payload.fileBase64) = true)
    (ha : atob (item.payload.fileBase64.getD "") = some bytes)
    (hn : net item.id = .rejected message) :
    replayItem env net db item
      = [.request item.id (replayRequest env item bytes) db.syncQueue,
         .logError item.id message] := by
  simp only [replayItem, replayTry, h, ha, hn]
  rfl

theorem replayItem_of_resolved (env : SyncEnv) (net : Nat → FetchOutcome) (db : LocalDB)
    (item : QueueItem) (bytes : List Nat) (response : Response)
    (h : (item.kind = "upload" && truthy item.payload.fileBase64) = true)
    (ha : atob (item.payload.fileBase64.getD "") = some bytes)
    (hn : net item.id = .resolved response) :
    replayItem env net db item
      = [.request item.id (replayRequest env item bytes) db.syncQueue, .logDone item.id] := by
  simp only [replayItem, replayTry, h, ha, hn]
  rfl

/-- The four shapes one iteration can take. -/
theorem replayItem_shape (env : SyncEnv) (net : Nat → FetchOutcome) (db : LocalDB)
    (item : QueueItem) :
    (uploadBytes item = none ∧
      (replayItem env net db item = [] ∨
       replayItem env net db item = [.logError item.id "InvalidCharacterError"])) ∨
    (∃ bytes, uploadBytes item = some bytes ∧
      ((∃ message, replayItem env net db item
          = [.request item.id (replayRequest env item bytes) db.syncQueue,
             .logError item.id message]) ∨
       replayItem env net db item
          = [.request item.id (replayRequest env item bytes) db.syncQueue,
             .logDone item.id])) := by
  cases h : (item.kind = "upload" && truthy item.payload.fileBase64) with
  | false =>
    left
    refine ⟨?_, Or.inl (replayItem_of_not_upload env net db item h)⟩
    simp only [uploadBytes, h]
    rfl
  | true =>
    cases ha : atob (item.payload.fileBase64.getD "") with
    | none =>
      left
      refine ⟨?_, Or.inr (replayItem_of_undecodable env net db item h ha)⟩
      simp only [uploadBytes, h, ha]
      rfl
    | some bytes =>
      right
      refine ⟨bytes, ?_, ?_⟩
      · simp only [uploadBytes, h, ha]
        rfl
      · cases hn : net item.id with
        | rejected message =>
          exact Or.inl ⟨message, replayItem_of_rejected env net db item bytes message h ha hn⟩
        | resolved response =>
          exact Or.inr (replayItem_of_resolved env net db item bytes response h ha hn)

theorem requestsOf_append (a b : List SyncEvent) :
    requestsOf (a ++ b) = requestsOf a ++ requestsOf b := by
  induction a with
  | nil => rfl
  | cons ev rest ih =>
    cases ev <;> simp [requestsOf, ih]

theorem requestsOf_replayItem (env : SyncEnv) (net : Nat → FetchOutcome) (db : LocalDB)
    (item : QueueItem) :
    requestsOf (replayItem env net db item)
      = ((uploadBytes item).map (fun bytes => (item.id, replayRequest env item bytes))).toList := by
  rcases replayItem_shape env net db item with ⟨hu, h | h⟩ | ⟨bytes, hu, ⟨message, h⟩ | h⟩ <;>
    rw [h, hu] <;> rfl

theorem requestsOf_replayLoop (env : SyncEnv) (net : Nat → FetchOutcome) (db : LocalDB)
    (items : List QueueItem) :
    requestsOf (replayLoop env net db items)
      = items.filterMap
          (fun item => (uploadBytes item).map (fun bytes => (item.id, replayRequest env item bytes))) := by
  induction items with
  | nil => rfl
  | cons item rest ih =>
    rw [replayLoop, requestsOf_append, ih, requestsOf_replayItem, List.filterMap_cons]
    cases uploadBytes item <;> rfl

theorem processSyncQueue_online (env : SyncEnv) (net : Nat → FetchOutcome) (db : LocalDB)
    (hon : env.onLine = true) :
    (processSyncQueue env net db).db = (drainSyncQueue db).2 ∧
    (processSyncQueue env net db).trace
      = (if db.syncQueue.length = 0 then []
         else .logPending db.syncQueue.length ::
           replayLoop env net (drainSyncQueue db).2 db.syncQueue) := by
  unfold processSyncQueue
  simp only [hon, Bool.not_true, Bool.false_eq_true, if_false]
  show _ ∧ _ = (if (drainSyncQueue db).1.length = 0 then _ else _)
  split_ifs with h
  · exact ⟨rfl, rfl⟩
  · exact ⟨rfl, rfl⟩

theorem requestsOf_processSyncQueue (env : SyncEnv) (net : Nat → FetchOutcome) (db : LocalDB)
    (hon : env.onLine = true) :
    requestsOf (processSyncQueue env net db).trace
      = db.syncQueue.filterMap
          (fun item => (uploadBytes item).map (fun bytes => (item.id, replayRequest env item bytes))) := by
  rw [(processSyncQueue_online env net db hon).2]
  split_ifs with h
  · rw [List.length_eq_zero.mp h]; rfl
  · show requestsOf (replayLoop env net _ db.syncQueue) = _
    exact requestsOf_replayLoop env net _ db.syncQueue

theorem processSyncQueue_result (env : SyncEnv) (net : Nat → FetchOutcome) (db : LocalDB) :
    (processSyncQueue env net db).result = .fulfilled .undefined := by
  unfold processSyncQueue
  split_ifs
  · rfl
  · show (if (drainSyncQueue db).1.length = 0 then _ else _ : SyncRun).result = _
    split_ifs <;> rfl

theorem mem_replayLoop (env : SyncEnv) (net : Nat → FetchOutcome) (db : LocalDB)
    (items : List QueueItem) (ev : SyncEvent) :
    ev ∈ replayLoop env net db items ↔ ∃ item ∈ items, ev ∈ replayItem env net db item := by
  induction items with
  | nil => simp [replayLoop]
  | cons item rest ih => simp [replayLoop, ih]

theorem mem_trace_processSyncQueue (env : SyncEnv) (net : Nat → FetchOutcome) (db : LocalDB)
    (hon : env.onLine = true) (item : QueueItem) (hitem : item ∈ db.syncQueue) (ev : SyncEvent)
    (hev : ev ∈ replayItem env net (drainSyncQueue db).2 item) :
    ev ∈ (processSyncQueue env net db).trace := by
  rw [(processSyncQueue_online env net db hon).2]
  have hne : ¬ db.syncQueue.length = 0 := by
    intro h
    rw [List.length_eq_zero.mp h] at hitem
    exact absurd hitem (List.not_mem_nil _)
  rw [if_neg hne]
  exact List.mem_cons_of_mem _ ((mem_replayLoop env net _ _ ev).mpr ⟨item, hitem, hev⟩)

theorem request_mem_replayItem (env : SyncEnv) (net : Nat → FetchOutcome) (db : LocalDB)
    (item : QueueItem) (itemId : Nat) (req : UploadRequest) (queue : List QueueItem)
    (h : SyncEvent.request itemId req queue ∈ replayItem env net db item) :
    queue = db.syncQueue ∧ itemId = item.id := by
  rcases replayItem_shape env net db item with ⟨_, h' | h'⟩ | ⟨bytes, _, ⟨message, h'⟩ | h'⟩ <;>
    rw [h'] at h <;> simp at h <;> exact ⟨h.2.2, h.1⟩

theorem settlesInTurn_replayItem_append (env : SyncEnv) (net : Nat → FetchOutcome)
    (db : LocalDB) (item : QueueItem) (rest : List SyncEvent) :
    settlesInTurn (replayItem env net db item ++ rest) = settlesInTurn rest := by
  rcases replayItem_shape env net db item with ⟨_, h | h⟩ | ⟨bytes, _, ⟨message, h⟩ | h⟩ <;>
    rw [h] <;> simp [settlesInTurn]

theorem settlesInTurn_replayLoop (env : SyncEnv) (net : Nat → FetchOutcome) (db : LocalDB)
    (items : List QueueItem) : settlesInTurn (replayLoop env net db items) = true := by
  induction items with
  | nil => rfl
  | cons item rest ih => rw [replayLoop, settlesInTurn_replayItem_append, ih]

theorem map_fst_filterMap_uploads (env : SyncEnv) (items : List QueueItem) :
    (items.filterMap
        (fun item => (uploadBytes item).map (fun bytes => (item.id, replayRequest env item bytes)))).map
      (fun p => p.1)
      = (items.filter (fun item => (uploadBytes item).isSome)).map (fun item => item.id) := by
  induction items with
  | nil => rfl
  | cons item rest ih =>
    rw [List.filterMap_cons, List.filter_cons]
    cases h : uploadBytes item with
    | none => simpa using ih
    | some bytes => simpa using ih

/-! ## Lemmas on the response cache -/

theorem find?_cachePut (cache : Cache) (url : String) (response : Response) (key : String) :
    (cache.filter (fun entry => !decide (entry.1 = url)) ++ [(url, response)]).find?
        (fun entry => decide (entry.1 = key))
      = if key = url then some (url, response)
        else cache.find? (fun entry => decide (entry.1 = key)) := by
  induction cache with
  | nil =>
    by_cases hk : key = url
    · simp [hk]
    · have : ¬ url = key := fun h => hk h.symm
      simp [hk, this]
  | cons entry rest ih =>
    by_cases he : entry.1 = url
    · have hf : (entry :: rest).filter (fun entry => !decide (entry.1 = url))
          = rest.filter (fun entry => !decide (entry.1 = url)) := by
        simp [List.filter_cons, he]
      rw [hf, ih]
      by_cases hk : key = url
      · simp [hk]
      · have : ¬ entry.1 = key := fun h => hk (h.symm.trans he)
        simp [hk, List.find?_cons, this]
    · have hf : (entry :: rest).filter (fun entry => !decide (entry.1 = url))
          = entry :: rest.filter (fun entry => !decide (entry.1 = url)) := by
        simp [List.filter_cons, he]
      rw [hf, List.cons_append, List.find?_cons, List.find?_cons, ih]
      by_cases hk : key = url
      · have hne : ¬ entry.1 = key := fun h => he (h.trans hk)
        rw [if_pos hk, if_pos hk]
        simp only [hne, decide_False]
      · simp [hk]

theorem cachePut_of_rejected (cache : Cache) (request : Request) (response : Response)
    (hput : putAccepted request response = false) :
    cachePut cache request response = cache := by
  simp [cachePut, hput]

theorem putAccepted_get (request : Request) (response : Response)
    (hput : putAccepted request response = true) : request.method = "GET" := by
  simp only [putAccepted, Bool.and_eq_true, decide_eq_true_eq] at hput
  exact hput.1.1.2

theorem cacheMatch_cachePut (cache : Cache) (request : Request) (response : Response)
    (hput : putAccepted request response = true) (other : Request) :
    cacheMatch (cachePut cache request response) other
      = if other.method = "GET" then
          (if other.url = request.url then some response else cacheMatch cache other)
        else none := by
  unfold cacheMatch cachePut
  rw [if_pos hput]
  by_cases hm : other.method = "GET"
  · rw [if_pos hm, if_pos hm, if_pos hm, find?_cachePut]
    by_cases hu : other.url = request.url
    · rw [if_pos hu, if_pos hu]; rfl
    · rw [if_neg hu, if_neg hu]
  · rw [if_neg hm, if_neg hm]

theorem networkFirstCalls_append (cache : Cache) (request : Request)
    (a b : List FetchOutcome) :
    networkFirstCalls cache request (a ++ b)
      = ((networkFirstCalls cache request a).1
            ++ (networkFirstCalls (networkFirstCalls cache request a).2 request b).1,
         (networkFirstCalls (networkFirstCalls cache request a).2 request b).2) := by
  induction a generalizing cache with
  | nil => rfl
  | cons outcome rest ih =>
    have h := ih (networkFirst cache request outcome).2
    show ((networkFirst cache request outcome).1 ::
            (networkFirstCalls (networkFirst cache request outcome).2 request (rest ++ b)).1,
          (networkFirstCalls (networkFirst cache request outcome).2 request (rest ++ b)).2) = _
    rw [h]
    rfl

theorem networkFirstCalls_length (cache : Cache) (request : Request)
    (outcomes : List FetchOutcome) :
    (networkFirstCalls cache request outcomes).1.length = outcomes.length := by
  induction outcomes generalizing cache with
  | nil => rfl
  | cons outcome rest ih => simp only [networkFirstCalls, List.length_cons, ih]

theorem networkFirst_cache_of_rejected (cache : Cache) (request : Request) (message : String) :
    (networkFirst cache request (.rejected message)).2 = cache := by
  unfold networkFirst
  simp only
  cases cacheMatch cache request <;> rfl

theorem networkFirst_cache_of_not_ok (cache : Cache) (request : Request)
    (outcome : FetchOutcome) (h : ∀ r, outcome = .resolved r → r.ok = false) :
    (networkFirst cache request outcome).2 = cache := by
  cases outcome with
  | rejected message => exact networkFirst_cache_of_rejected cache request message
  | resolved response =>
    have hok : response.ok = false := h response rfl
    simp [networkFirst, hok]

theorem networkFirstCalls_cache_of_not_ok (cache : Cache) (request : Request)
    (outcomes : List FetchOutcome)
    (h : ∀ o ∈ outcomes, ∀ r, o = .resolved r → r.ok = false) :
    (networkFirstCalls cache request outcomes).2 = cache := by
  induction outcomes generalizing cache with
  | nil => rfl
  | cons outcome rest ih =>
    have h1 := networkFirst_cache_of_not_ok cache request outcome
      (h outcome (List.mem_cons_self _ _))
    have h2 : ∀ o ∈ rest, ∀ r, o = .resolved r → r.ok = false :=
      fun o ho => h o (List.mem_cons_of_mem _ ho)
    simp only [networkFirstCalls, h1]
    exact ih cache h2

theorem networkFirst_of_rejected_cached (cache : Cache) (request : Request) (message : String)
    (cached : Response) (h : cacheMatch cache request = some cached) :
    networkFirst cache request (.rejected message) = (cached, cache) := by
  simp [networkFirst, h]

theorem cacheMatch_after_ok (cache : Cache) (request : Request) (response : Response)
    (hget : request.method = "GET") (hok : response.ok = true)
    (hput : putAccepted request response = true) :
    cacheMatch (networkFirst cache request (.resolved response)).2 request = some response := by
  have : (networkFirst cache request (.resolved response)).2 = cachePut cache request response := by
    simp [networkFirst, hget, hok]
  rw [this, cacheMatch_cachePut _ _ _ hput, if_pos hget, if_pos rfl]

/-! ## Lemmas on the products table and its queries -/

theorem mem_putProduct (table : List Entity) (e y : Entity) (h : y ∈ putProduct table e) :
    y = e ∨ y ∈ table := by
  induction table with
  | nil =>
    simp only [putProduct, List.mem_singleton] at h
    exact Or.inl h
  | cons x xs ih =>
    simp only [putProduct] at h
    split_ifs at h with h1 h2
    · rcases List.mem_cons.mp h with h | h
      · exact Or.inl h
      · exact Or.inr (List.mem_cons_of_mem _ h)
    · rcases List.mem_cons.mp h with h | h
      · exact Or.inl h
      · exact Or.inr h
    · rcases List.mem_cons.mp h with h | h
      · exact Or.inr (h ▸ List.mem_cons_self _ _)
      · rcases ih h with h | h
        · exact Or.inl h
        · exact Or.inr (List.mem_cons_of_mem _ h)

theorem pairwise_putProduct (table : List Entity) (e : Entity)
    (h : table.Pairwise (fun a b => a.id < b.id)) :
    (putProduct table e).Pairwise (fun a b => a.id < b.id) := by
  induction table with
  | nil => exact List.pairwise_singleton _ _
  | cons x xs ih =>
    have hx : ∀ y ∈ xs, x.id < y.id := (List.pairwise_cons.mp h).1
    have hxs : xs.Pairwise (fun a b => a.id < b.id) := (List.pairwise_cons.mp h).2
    simp only [putProduct]
    split_ifs with h1 h2
    · refine List.pairwise_cons.mpr ⟨fun y hy => ?_, hxs⟩
      rw [h1]
      exact hx y hy
    · refine List.pairwise_cons.mpr ⟨fun y hy => ?_, h⟩
      rcases List.mem_cons.mp hy with hy | hy
      · rw [hy]; exact h2
      · exact lt_trans h2 (hx y hy)
    · have hlt : x.id < e.id := lt_of_le_of_ne (not_lt.mp h2) (fun heq => h1 heq.symm)
      refine List.pairwise_cons.mpr ⟨fun y hy => ?_, ih hxs⟩
      rcases mem_putProduct xs e y hy with hy | hy
      · rw [hy]; exact hlt
      · exact hx y hy

theorem pairwise_bulkPut (values : List Entity) (table : List Entity)
    (h : table.Pairwise (fun a b => a.id < b.id)) :
    (bulkPut table values).Pairwise (fun a b => a.id < b.id) := by
  induction values generalizing table with
  | nil => exact h
  | cons v vs ih => exact ih (putProduct table v) (pairwise_putProduct table v h)

theorem productsOrdered_of_reachable {db : LocalDB} (h : Reachable db) : ProductsOrdered db := by
  induction h with
  | empty => exact List.Pairwise.nil
  | saveProducts products _ ih =>
    unfold ProductsOrdered
    rw [saveProducts_products]
    exact pairwise_bulkPut products _ ih
  | clearProducts _ _ => exact List.Pairwise.nil
  | enqueueSync kind payload now _ ih => exact ih
  | drainSyncQueue _ ih => exact ih

theorem pairwise_ne_of_productsOrdered {db : LocalDB} (h : ProductsOrdered db) :
    db.products.Pairwise (fun a b => a.id ≠ b.id) :=
  List.Pairwise.imp (fun hab => ne_of_lt hab) h

theorem nodup_of_productsOrdered {db : LocalDB} (h : ProductsOrdered db) : db.products.Nodup :=
  List.Pairwise.imp (fun hab heq => absurd (congrArg Entity.id heq) (ne_of_lt hab)) h

/-- In a table without repeated ids, the row found under an id is the only row with
that id. -/
theorem filter_id_of_getProduct (table : List Entity) (e : Entity)
    (h : table.Pairwise (fun a b => a.id ≠ b.id))
    (hget : getProduct table e.id = some e) :
    table.filter (fun x => decide (x.id = e.id)) = [e] := by
  induction table with
  | nil => simp [getProduct] at hget
  | cons x xs ih =>
    have hx : ∀ y ∈ xs, x.id ≠ y.id := (List.pairwise_cons.mp h).1
    have hxs := (List.pairwise_cons.mp h).2
    simp only [getProduct, List.find?_cons] at hget
    by_cases hid : x.id = e.id
    · simp only [hid, decide_True] at hget
      have hxe : x = e := Option.some.inj hget
      subst hxe
      rw [List.filter_cons, if_pos (by simp)]
      congr 1
      rw [List.filter_eq_nil_iff]
      intro y hy
      simpa using fun heq => hx y hy heq.symm
    · simp only [hid, decide_False] at hget
      rw [List.filter_cons, if_neg (by simpa using hid)]
      exact ih hxs hget

theorem isPrefixOf_iff_append (needle hay : List Char) :
    needle.isPrefixOf hay = true ↔ ∃ post, hay = needle ++ post := by
  induction needle generalizing hay with
  | nil => simp
  | cons c cs ih =>
    cases hay with
    | nil => simp
    | cons d ds =>
      simp only [List.isPrefixOf, Bool.and_eq_true, beq_iff_eq, ih, List.cons_append,
        List.cons.injEq]
      constructor
      · rintro ⟨hcd, post, hpost⟩
        exact ⟨post, hcd.symm, hpost⟩
      · rintro ⟨post, hcd, hpost⟩
        exact ⟨hcd.symm, post, hpost⟩

theorem includesChars_iff (hay needle : List Char) :
    includesChars hay needle = true ↔ ∃ pre post, hay = pre ++ needle ++ post := by
  induction hay with
  | nil =>
    simp only [includesChars, List.isEmpty_iff]
    constructor
    · intro h; exact ⟨[], [], by simp [h]⟩
    · rintro ⟨pre, post, h⟩
      have := congrArg List.length h
      simp only [List.length_nil, List.length_append] at this
      exact List.length_eq_zero.mp (by omega)
  | cons c cs ih =>
    simp only [includesChars, Bool.or_eq_true, isPrefixOf_iff_append, ih]
    constructor
    · rintro (⟨post, h⟩ | ⟨pre, post, h⟩)
      · exact ⟨[], post, by simpa using h⟩
      · exact ⟨c :: pre, post, by simp [h]⟩
    · rintro ⟨pre, post, h⟩
      cases pre with
      | nil => exact Or.inl ⟨post, by simpa using h⟩
      | cons d ds =>
        simp only [List.cons_append, List.cons.injEq] at h
        exact Or.inr ⟨ds, post, h.2⟩

theorem containsIgnoringCase_iff (toLowerCase : String → String) (value term : String) :
    ContainsIgnoringCase toLowerCase value term
      ↔ includes (toLowerCase value) (toLowerCase term) = true :=
  (includesChars_iff _ _).symm

theorem trim_empty : trim "" = "" := rfl

theorem string_eq_empty_of_toList {s : String} (h : s.toList = []) : s = "" :=
  String.toList_inj.mp h

theorem truthy_some_iff (s : String) : truthy (some s) = true ↔ s ≠ "" := by
  simp [truthy]

/-- The filter callback decides the property of the specification, for a term that
is not blank and a lower-casing that maps only the empty string to the empty string. -/
theorem matchesTerm_iff (toLowerCase : String → String)
    (hlower : ∀ s, toLowerCase s = "" ↔ s = "") (term : String) (hterm : term ≠ "")
    (p : Entity) :
    matchesTerm toLowerCase (toLowerCase term) p = true ↔ TitleOrSkuContains toLowerCase term p := by
  have hnonempty : ∀ v : String, ContainsIgnoringCase toLowerCase v term → v ≠ "" := by
    rintro v ⟨pre, post, h⟩ hv
    rw [hv, (hlower "").mpr rfl] at h
    have hlen := congrArg List.length h
    simp only [String.toList_empty, List.length_nil, List.length_append] at hlen
    have : (toLowerCase term).toList = [] := List.length_eq_zero.mp (by omega)
    exact hterm ((hlower term).mp (string_eq_empty_of_toList this))
  unfold matchesTerm TitleOrSkuContains
  simp only [Bool.or_eq_true, Bool.and_eq_true]
  constructor
  · rintro (⟨ht, hi⟩ | ⟨ht, hi⟩)
    · left
      cases hp : p.title with
      | none => rw [hp] at ht; simp [truthy] at ht
      | some title =>
        rw [hp] at hi
        exact ⟨title, rfl, (containsIgnoringCase_iff _ _ _).mpr hi⟩
    · right
      cases hp : p.sku with
      | none => rw [hp] at ht; simp [truthy] at ht
      | some sku =>
        rw [hp] at hi
        exact ⟨sku, rfl, (containsIgnoringCase_iff _ _ _).mpr hi⟩
  · rintro (⟨title, hp, hc⟩ | ⟨sku, hp, hc⟩)
    · left
      rw [hp]
      exact ⟨(truthy_some_iff title).mpr (hnonempty title hc),
        (containsIgnoringCase_iff _ _ _).mp hc⟩
    · right
      rw [hp]
      exact ⟨(truthy_some_iff sku).mpr (hnonempty sku hc),
        (containsIgnoringCase_iff _ _ _).mp hc⟩

theorem getLocalProducts_of_term (toLowerCase : String → String) (db : LocalDB)
    (searchTerm : String) (hterm : trim searchTerm ≠ "") (limit : Option Nat) :
    (getLocalProducts toLowerCase db (some searchTerm) limit).1
      = (db.products.filter (matchesTerm toLowerCase (toLowerCase (trim searchTerm)))).take
          (limit.getD 50) := by
  have h1 : truthy (some searchTerm) = true := by
    rw [truthy_some_iff]
    intro h
    rw [h] at hterm
    exact hterm trim_empty
  have h2 : truthy (some (trim searchTerm)) = true := (truthy_some_iff _).mpr hterm
  simp [getLocalProducts, h1, h2]

theorem getLocalProducts_sublist (toLowerCase : String → String) (db : LocalDB)
    (searchTerm : Option String) (limit : Option Nat) :
    (getLocalProducts toLowerCase db searchTerm limit).1.Sublist db.products ∧
    (getLocalProducts toLowerCase db searchTerm limit).1.length ≤ limit.getD 50 ∧
    (getLocalProducts toLowerCase db searchTerm limit).2 = db := by
  unfold getLocalProducts
  simp only
  split_ifs
  · exact ⟨(List.take_sublist _ _).trans (List.filter_sublist _),
      List.length_take_le _ _, rfl⟩
  · exact ⟨List.take_sublist _ _, List.length_take_le _ _, rfl⟩

theorem asciiLower_eq_empty (s : String) : asciiLower s = "" ↔ s = "" := by
  constructor
  · intro h
    have h1 : (asciiLower s).toList = [] := by rw [h]; rfl
    have h2 : s.toList.map Char.toLower = [] := h1
    exact string_eq_empty_of_toList (List.map_eq_nil_iff.mp h2)
  · intro h
    rw [h]
    rfl

/-! ## Lemmas on histories of the sync queue -/

theorem saveProducts_syncQueue (db : LocalDB) (products : List Entity) :
    (saveProducts db products).syncQueue = db.syncQueue ∧
    (saveProducts db products).nextId = db.nextId := by
  unfold saveProducts
  split_ifs <;> exact ⟨rfl, rfl⟩

theorem queueOrdered_applyOp (db : LocalDB) (op : Op) (hq : QueueOrdered db) :
    QueueOrdered (applyOp db op) ∧ db.nextId ≤ (applyOp db op).nextId := by
  cases op with
  | saveProducts products =>
    have h := saveProducts_syncQueue db products
    refine ⟨?_, Nat.le_of_eq h.2.symm⟩
    unfold QueueOrdered
    show List.Pairwise _ (saveProducts db products).syncQueue ∧
      ∀ it ∈ (saveProducts db products).syncQueue, it.id < (saveProducts db products).nextId
    rw [h.1, h.2]
    exact hq
  | clearProducts => exact ⟨hq, Nat.le_refl _⟩
  | enqueueSync kind payload now =>
    exact ⟨queueOrdered_enqueueSync db hq kind payload now, Nat.le_succ _⟩
  | drainSyncQueue =>
    exact ⟨⟨List.Pairwise.nil, fun _ hit => absurd hit (List.not_mem_nil _)⟩, Nat.le_refl _⟩

theorem mem_newItems (before after : LocalDB) (it : QueueItem) (h : it ∈ newItems before after) :
    it ∈ after.syncQueue :=
  (List.mem_filter.mp h).1

theorem everEnqueued_lt_nextId (ops : List Op) (db : LocalDB) (hq : QueueOrdered db) :
    QueueOrdered (runOps db ops) ∧ db.nextId ≤ (runOps db ops).nextId ∧
    ∀ old ∈ everEnqueued db ops, old.id < (runOps db ops).nextId := by
  induction ops generalizing db with
  | nil => exact ⟨hq, Nat.le_refl _, fun _ h => absurd h (List.not_mem_nil _)⟩
  | cons op rest ih =>
    have hstep := queueOrdered_applyOp db op hq
    have hrest := ih (applyOp db op) hstep.1
    refine ⟨hrest.1, Nat.le_trans hstep.2 hrest.2.1, ?_⟩
    intro old hold
    simp only [everEnqueued, List.mem_append] at hold
    rcases hold with hold | hold
    · exact Nat.lt_of_lt_of_le (hstep.1.2 old (mem_newItems _ _ old hold)) hrest.2.1
    · exact hrest.2.2 old hold

theorem queueOrdered_empty : QueueOrdered LocalDB.empty :=
  ⟨List.Pairwise.nil, fun _ hit => absurd hit (List.not_mem_nil _)⟩

theorem newItems_enqueueSync (db : LocalDB) (hq : QueueOrdered db)
    (kind : String) (payload : Payload) (now : String) :
    newItems db (enqueueSync db kind payload now) = [⟨db.nextId, kind, payload, now⟩] := by
  have hfresh : (⟨db.nextId, kind, payload, now⟩ : QueueItem) ∉ db.syncQueue := by
    intro hmem
    exact Nat.lt_irrefl _ (hq.2 _ hmem)
  unfold newItems
  rw [enqueueSync_syncQueue db hq, List.filter_append]
  have hold : db.syncQueue.filter (fun it => !db.syncQueue.contains it) = [] := by
    rw [List.filter_eq_nil_iff]
    intro it hit
    simp [hit]
  rw [hold, List.nil_append, List.filter_cons, if_pos (by simpa using hfresh)]
  rfl

/-! ## Lemmas on the triggers, the middleware and the refresh -/

theorem authMiddleware_of_bearer (verify : String → VerifyOutcome) (token : String) :
    authMiddleware verify (some ("Bearer " ++ token))
      = match verify token with
        | .decoded payload => ⟨none, none, true, some payload⟩
        | .expired => ⟨some 401, some "Token expirado", false, none⟩
        | .invalid => ⟨some 401, some "Token inválido", false, none⟩ := by
  have hlist : ("Bearer " ++ token).toList = "Bearer ".toList ++ token.toList :=
    String.data_append _ _
  have htruthy : truthy (some ("Bearer " ++ token)) = true := by
    rw [truthy_some_iff]
    intro h
    have := congrArg String.toList h
    rw [hlist] at this
    simp at this
  have hstarts : startsWith ("Bearer " ++ token) "Bearer " = true := by
    unfold startsWith
    rw [isPrefixOf_iff_append]
    exact ⟨token.toList, hlist⟩
  have htoken : String.mk (("Bearer " ++ token).toList.drop 7) = token := by
    rw [hlist]
    rfl
  unfold authMiddleware
  simp only [Option.getD_some, htruthy, hstarts, htoken, Bool.not_true, Bool.or_self,
    Bool.false_eq_true, if_false]

theorem authMiddleware_of_not_bearer (verify : String → VerifyOutcome)
    (authorization : Option String)
    (h : ¬ ∃ token, authorization = some ("Bearer " ++ token)) :
    authMiddleware verify authorization
      = ⟨some 401, some "Token de autenticación requerido", false, none⟩ := by
  have hcond : (!truthy authorization || !startsWith (authorization.getD "") "Bearer ") = true := by
    cases authorization with
    | none => rfl
    | some header =>
      cases hs : startsWith header "Bearer " with
      | false => simp [hs]
      | true =>
        exfalso
        apply h
        unfold startsWith at hs
        obtain ⟨post, hpost⟩ := (isPrefixOf_iff_append _ _).mp hs
        refine ⟨String.mk post, ?_⟩
        congr 1
        apply String.toList_inj.mp
        rw [hpost]
        exact (String.data_append _ _).symm
  unfold authMiddleware
  rw [if_pos hcond]

theorem isSome_getProduct_bulkPut (values : List Entity) (table : List Entity) (k : String)
    (h : (getProduct table k).isSome = true) :
    (getProduct (bulkPut table values) k).isSome = true := by
  induction values generalizing table with
  | nil => exact h
  | cons v vs ih =>
    apply ih (putProduct table v)
    rw [getProduct_putProduct]
    split_ifs
    · rfl
    · exact h

theorem syncProducts_keeps (env : SyncEnv) (reply : InventoryReply) (db : LocalDB)
    (k : String)
    (habsent : ∀ status array, reply = .json status (some array) → ∀ x ∈ array, x.id ≠ k) :
    getProduct (syncProducts env 200 reply db).db.products k = getProduct db.products k := by
  unfold syncProducts
  simp only
  cases reply with
  | networkError message => rfl
  | notJson status => rfl
  | json status products =>
    simp only
    split_ifs
    · cases products with
      | none => rfl
      | some array =>
        simp only
        split_ifs
        · rw [saveProducts_products]
          exact getProduct_bulkPut_of_absent array _ k (habsent status array rfl)
        · rfl
    · rfl

theorem refreshes_keep (env : SyncEnv) (replies : List InventoryReply) (db : LocalDB)
    (k : String)
    (habsent : ∀ reply ∈ replies, ∀ status array, reply = .json status (some array) →
      ∀ x ∈ array, x.id ≠ k) :
    getProduct (replies.foldl (fun d reply => (syncProducts env 200 reply d).db) db).products k
      = getProduct db.products k := by
  induction replies generalizing db with
  | nil => rfl
  | cons reply rest ih =>
    rw [List.foldl_cons, ih _ (fun r hr => habsent r (List.mem_cons_of_mem _ hr))]
    exact syncProducts_keeps env reply db k (habsent reply (List.mem_cons_self _ _))

/-- Every run of `syncProducts` with the default limit issues the one product-list
request, however the request goes. -/
theorem syncProducts_requests (env : SyncEnv) (reply : InventoryReply) (db : LocalDB) :
    (syncProducts env 200 reply db).requests
      = [getApiBase env ++ "/api/inventory?limit=200"] := by
  have hurl : getApiBase env ++ "/api/inventory?limit=" ++ toString (200 : Nat)
      = getApiBase env ++ "/api/inventory?limit=200" := by
    rw [String.append_assoc]
    rfl
  unfold syncProducts
  simp only
  rw [hurl]
  cases reply with
  | networkError message => rfl
  | notJson status => rfl
  | json status products =>
    simp only
    split_ifs
    · cases products with
      | none => rfl
      | some array =>
        simp only
        split_ifs <;> rfl
    · rfl

/-- The product-list requests of a list of calls carried out: one for each
`syncProducts` among them. -/
theorem runCalls_refreshes (env : SyncEnv) (reply : InventoryReply)
    (net : Nat → FetchOutcome) (calls : List Call) (db : LocalDB) :
    (runCalls env reply net calls db).refreshes
      = (calls.filter (fun c => decide (c = Call.syncProducts))).map
          (fun _ => getApiBase env ++ "/api/inventory?limit=200") := by
  induction calls generalizing db with
  | nil => rfl
  | cons c rest ih =>
    cases c with
    | syncProducts =>
      show (syncProducts env 200 reply db).requests ++
          (runCalls env reply net rest (syncProducts env 200 reply db).db).refreshes = _
      rw [syncProducts_requests, ih]
      rfl
    | processSyncQueue =>
      show (runCalls env reply net rest (processSyncQueue env net db).db).refreshes = _
      rw [ih]
      rfl

/-- A sequence of triggers with no run completing in between: the runs in flight and
the requests issued accumulate. -/
theorem fire_sequence (env : SyncEnv) (ts : List Trigger) (s : Scheduler) :
    (ts.foldl (Scheduler.fire env) s).running = s.running ++ ts.flatMap (startedBy env) ∧
    (ts.foldl (Scheduler.fire env) s).requested
      = s.requested ++
        ((ts.flatMap (startedBy env)).filter (fun c => decide (c = Call.syncProducts))).map
          (fun _ => getApiBase env ++ "/api/inventory?limit=200") := by
  induction ts generalizing s with
  | nil => simp
  | cons t rest ih =>
    rw [List.foldl_cons, List.flatMap_cons]
    constructor
    · rw [(ih (Scheduler.fire env s t)).1]
      show (s.running ++ startedBy env t) ++ _ = _
      rw [List.append_assoc]
    · rw [(ih (Scheduler.fire env s t)).2]
      show (s.requested ++ _) ++ _ = _
      rw [List.append_assoc, List.filter_append, List.map_append]

/-! ## Lemmas on `processCSV` -/

/-- One iteration adds one to exactly one of the three counts and issues a query
exactly for a valid row. -/
theorem processRow_step {σ : Type} (safeDecimal : Option String → Option Rat)
    (exec : σ → ProductParams → σ × QueryOutcome) (acc : CsvRun σ) (row : CsvRow) :
    (processRow safeDecimal exec acc row).stats.inserted
        + (processRow safeDecimal exec acc row).stats.updated
        + (processRow safeDecimal exec acc row).stats.errors.length
      = acc.stats.inserted + acc.stats.updated + acc.stats.errors.length + 1 ∧
    (processRow safeDecimal exec acc row).queries.length
      = acc.queries.length + (if rowIsValid row = true then 1 else 0) ∧
    (processRow safeDecimal exec acc row).stats.inserted
        + (processRow safeDecimal exec acc row).stats.updated
      ≤ acc.stats.inserted + acc.stats.updated + (if rowIsValid row = true then 1 else 0) := by
  unfold processRow
  simp only
  by_cases htitle : trim ((row.get "Title").getD "") = ""
  · have hvalid : rowIsValid row = false := by simp [rowIsValid, htitle]
    simp only [htitle, if_true, hvalid, List.length_append, List.length_singleton]
    refine ⟨by omega, by simp, by simp⟩
  · simp only [htitle, if_false]
    cases hkey : ((cell row "Variant SKU").isNone && (cell row "Handle").isNone) with
    | true =>
      have hvalid : rowIsValid row = false := by
        simp only [Bool.and_eq_true, Option.isNone_iff_eq_none] at hkey
        simp [rowIsValid, hkey.1, hkey.2]
      simp only [if_true, hvalid, List.length_append, List.length_singleton]
      refine ⟨by omega, by simp, by simp⟩
    | false =>
      have hvalid : rowIsValid row = true := by
        have : (cell row "Variant SKU").isSome = true ∨ (cell row "Handle").isSome = true := by
          cases h1 : cell row "Variant SKU" with
          | some v => exact Or.inl rfl
          | none =>
            cases h2 : cell row "Handle" with
            | some v => exact Or.inr rfl
            | none => rw [h1, h2] at hkey; exact Bool.noConfusion hkey
        simp only [rowIsValid, Bool.and_eq_true, Bool.or_eq_true, decide_eq_true_eq]
        exact ⟨htitle, this⟩
      simp only [Bool.false_eq_true, if_false, hvalid, if_true]
      rcases hexec : exec acc.db
          (paramsOf safeDecimal row (trim ((row.get "Title").getD ""))) with ⟨db, outcome⟩
      cases outcome with
      | inserted =>
        simp only [List.length_append, List.length_singleton]
        refine ⟨by omega, trivial, by omega⟩
      | updated =>
        simp only [List.length_append, List.length_singleton]
        refine ⟨by omega, trivial, by omega⟩
      | failed message =>
        simp only [List.length_append, List.length_singleton]
        refine ⟨by omega, trivial, by omega⟩

theorem foldl_processRow {σ : Type} (safeDecimal : Option String → Option Rat)
    (exec : σ → ProductParams → σ × QueryOutcome) (rows : List CsvRow) (acc : CsvRun σ) :
    (rows.foldl (processRow safeDecimal exec) acc).stats.inserted
        + (rows.foldl (processRow safeDecimal exec) acc).stats.updated
        + (rows.foldl (processRow safeDecimal exec) acc).stats.errors.length
      = acc.stats.inserted + acc.stats.updated + acc.stats.errors.length + rows.length ∧
    (rows.foldl (processRow safeDecimal exec) acc).queries.length
      = acc.queries.length + (rows.filter rowIsValid).length ∧
    (rows.foldl (processRow safeDecimal exec) acc).stats.inserted
        + (rows.foldl (processRow safeDecimal exec) acc).stats.updated
      ≤ acc.stats.inserted + acc.stats.updated + (rows.filter rowIsValid).length := by
  induction rows generalizing acc with
  | nil => simp
  | cons row rest ih =>
    have hstep := processRow_step safeDecimal exec acc row
    have hrest := ih (processRow safeDecimal exec acc row)
    rw [List.foldl_cons, List.filter_cons]
    by_cases hvalid : rowIsValid row = true
    · simp only [hvalid, if_true, List.length_cons] at hstep ⊢
      refine ⟨by omega, by omega, by omega⟩
    · simp only [hvalid, if_false, List.length_cons] at hstep ⊢
      simp only [Bool.false_eq_true, if_false] at hstep ⊢
      refine ⟨by omega, by omega, by omega⟩

/-! ## Lemmas on base64 -/

theorem base64_table : ∀ n, n < 64 →
    base64Index (base64Char n) = some n ∧ isAsciiWhitespace (base64Char n) = false ∧
    base64Char n ≠ '=' := by
  decide

theorem encodeGroups_eq : ∀ bytes : List Nat,
    encodeGroups bytes = (sextets bytes).map base64Char ++ padding bytes
  | a :: b :: c :: rest => by
    simp only [encodeGroups, sextets, padding, List.map_cons, List.cons_append,
      encodeGroups_eq rest]
  | [a, b] => rfl
  | [a] => rfl
  | [] => rfl

theorem sextets_lt : ∀ bytes : List Nat, (∀ b ∈ bytes, b < 256) → ∀ n ∈ sextets bytes, n < 64
  | a :: b :: c :: rest, h => by
    have ha := h a (by simp)
    have hb := h b (by simp)
    have hc := h c (by simp)
    have hrest := sextets_lt rest (fun x hx => h x (by simp [hx]))
    intro n hn
    simp only [sextets, List.mem_cons] at hn
    rcases hn with rfl | rfl | rfl | rfl | hn
    · omega
    · omega
    · omega
    · omega
    · exact hrest n hn
  | [a, b], h => by
    have ha := h a (by simp)
    have hb := h b (by simp)
    intro n hn
    simp only [sextets, List.mem_cons, List.mem_singleton] at hn
    rcases hn with rfl | rfl | rfl | hn
    · omega
    · omega
    · omega
    · simp at hn
  | [a], h => by
    have ha := h a (by simp)
    intro n hn
    simp only [sextets, List.mem_cons, List.mem_singleton] at hn
    rcases hn with rfl | rfl | hn
    · omega
    · omega
    · simp at hn
  | [], _ => by simp [sextets]

theorem decodeGroups_sextets : ∀ bytes : List Nat, (∀ b ∈ bytes, b < 256) →
    decodeGroups (sextets bytes) = bytes
  | a :: b :: c :: rest, h => by
    have ha := h a (by simp)
    have hb := h b (by simp)
    have hc := h c (by simp)
    have hrest := decodeGroups_sextets rest (fun x hx => h x (by simp [hx]))
    simp only [sextets, decodeGroups, hrest, List.cons.injEq, and_true]
    refine ⟨by omega, by omega, by omega⟩
  | [a, b], h => by
    have ha := h a (by simp)
    have hb := h b (by simp)
    simp only [sextets, decodeGroups, List.cons.injEq, and_true]
    refine ⟨by omega, by omega⟩
  | [a], h => by
    have ha := h a (by simp)
    simp only [sextets, decodeGroups, List.cons.injEq, and_true]
    omega
  | [], _ => rfl

theorem sextets_length : ∀ bytes : List Nat,
    (sextets bytes).length % 4 ≠ 1 ∧ ((sextets bytes).length + (padding bytes).length) % 4 = 0 ∧
    (bytes ≠ [] → sextets bytes ≠ [])
  | a :: b :: c :: rest => by
    have h := sextets_length rest
    simp only [sextets, padding, List.length_cons]
    refine ⟨by omega, by omega, fun _ => by simp⟩
  | [a, b] => by simp [sextets, padding]
  | [a] => by simp [sextets, padding]
  | [] => by simp [sextets, padding]

theorem padding_cases : ∀ bytes : List Nat,
    padding bytes = [] ∨ padding bytes = ['='] ∨ padding bytes = ['=', '=']
  | _ :: _ :: _ :: rest => by
    simp only [padding]
    exact padding_cases rest
  | [_, _] => Or.inr (Or.inl rfl)
  | [_] => Or.inr (Or.inr rfl)
  | [] => Or.inl rfl

theorem base64Indices_map (values : List Nat) (h : ∀ n ∈ values, n < 64) :
    base64Indices (values.map base64Char) = some values := by
  induction values with
  | nil => rfl
  | cons v vs ih =>
    have hv := (base64_table v (h v (List.mem_cons_self _ _))).1
    have hvs := ih (fun n hn => h n (List.mem_cons_of_mem _ hn))
    simp only [List.map_cons, base64Indices, hv, hvs]

theorem stripPadding_two (u : List Char) (h : (u ++ ['=', '=']).length % 4 = 0) :
    stripPadding (u ++ ['=', '=']) = u := by
  unfold stripPadding
  rw [if_pos h]
  simp [List.reverse_append]

theorem stripPadding_one (u : List Char) (x : Char) (hx : x ≠ '=')
    (h : (u ++ [x] ++ ['=']).length % 4 = 0) :
    stripPadding (u ++ [x] ++ ['=']) = u ++ [x] := by
  unfold stripPadding
  rw [if_pos h]
  have hrev : (u ++ [x] ++ ['=']).reverse = '=' :: x :: u.reverse := by
    simp [List.reverse_append]
  rw [hrev]
  split
  · rename_i rest heq
    simp only [List.cons.injEq, true_and] at heq
    exact absurd heq.1 hx
  · rename_i rest heq
    simp only [List.cons.injEq, true_and] at heq
    rw [← heq]
    simp
  · rename_i h1 h2
    exact absurd rfl (h2 (x :: u.reverse))

theorem stripPadding_none (u : List Char) (x : Char) (hx : x ≠ '=')
    (h : (u ++ [x]).length % 4 = 0) :
    stripPadding (u ++ [x]) = u ++ [x] := by
  unfold stripPadding
  rw [if_pos h]
  have hrev : (u ++ [x]).reverse = x :: u.reverse := by
    simp [List.reverse_append]
  rw [hrev]
  split
  · rename_i rest heq
    simp only [List.cons.injEq] at heq
    exact absurd heq.1 hx
  · rename_i rest heq
    simp only [List.cons.injEq] at heq
    exact absurd heq.1 hx
  · rfl

/-- Stripping the padding of an encoding leaves the characters of the 6-bit values. -/
theorem stripPadding_encodeGroups (bytes : List Nat) (hbytes : ∀ b ∈ bytes, b < 256)
    (hne : bytes ≠ []) :
    stripPadding (encodeGroups bytes) = (sextets bytes).map base64Char := by
  have hlen := sextets_length bytes
  have hlt := sextets_lt bytes hbytes
  rw [encodeGroups_eq]
  have hsx : sextets bytes ≠ [] := hlen.2.2 hne
  rcases List.eq_nil_or_concat (sextets bytes) with hnil | ⟨front, last, hconcat⟩
  · exact absurd hnil hsx
  · have hlast : base64Char last ≠ '=' :=
      (base64_table last (hlt last (by rw [hconcat]; simp))).2.2
    have hmap : (sextets bytes).map base64Char = front.map base64Char ++ [base64Char last] := by
      rw [hconcat]; simp
    have hlen4 : ((sextets bytes).map base64Char ++ padding bytes).length % 4 = 0 := by
      rw [List.length_append, List.length_map]
      exact hlen.2.1
    rcases padding_cases bytes with hp | hp | hp
    · rw [hp, List.append_nil] at hlen4 ⊢
      rw [hmap] at hlen4 ⊢
      exact stripPadding_none _ _ hlast hlen4
    · rw [hp] at hlen4 ⊢
      rw [hmap] at hlen4 ⊢
      exact stripPadding_one _ _ hlast hlen4
    · rw [hp] at hlen4 ⊢
      exact stripPadding_two _ hlen4

theorem mem_padding : ∀ (bytes : List Nat) (c : Char), c ∈ padding bytes → c = '='
  | _ :: _ :: _ :: rest, c, h => by
    simp only [padding] at h
    exact mem_padding rest c h
  | [_, _], c, h => by simpa [padding] using h
  | [_], c, h => by simpa [padding] using h
  | [], c, h => by simp [padding] at h

theorem filter_encodeGroups (bytes : List Nat) (hbytes : ∀ b ∈ bytes, b < 256) :
    (encodeGroups bytes).filter (fun c => !isAsciiWhitespace c) = encodeGroups bytes := by
  rw [List.filter_eq_self]
  intro c hc
  rw [encodeGroups_eq, List.mem_append, List.mem_map] at hc
  rcases hc with ⟨n, hn, rfl⟩ | hc
  · rw [(base64_table n (sextets_lt bytes hbytes n hn)).2.1]
    rfl
  · rw [mem_padding bytes c hc]
    rfl

/-- Decoding the encoding of a non-empty list of bytes gives the bytes back. -/
theorem atob_btoa (bytes : List Nat) (hbytes : ∀ b ∈ bytes, b < 256) (hne : bytes ≠ []) :
    atob (btoa bytes) = some bytes := by
  have hlist : (btoa bytes).toList = encodeGroups bytes := rfl
  unfold atob
  simp only [hlist, filter_encodeGroups bytes hbytes,
    stripPadding_encodeGroups bytes hbytes hne, List.length_map]
  rw [if_neg (sextets_length bytes).1, base64Indices_map _ (sextets_lt bytes hbytes)]
  simp only [Option.map_some']
  rw [decodeGroups_sextets bytes hbytes]

theorem btoa_ne_empty (bytes : List Nat) (hne : bytes ≠ []) : btoa bytes ≠ "" := by
  intro h
  have hlist : encodeGroups bytes = [] := congrArg String.toList h
  rw [encodeGroups_eq] at hlist
  have := (List.append_eq_nil.mp hlist).1
  exact (sextets_length bytes).2.2 hne (List.map_eq_nil_iff.mp this)

/-! ## Claims -/

/-- C1: after any sequence of `saveProducts` calls from any store, the snapshot stored
under an id that occurs in some call is the last entity with that id, in call order
and in array order within a call. "Last" is spelled out: the concatenated calls split
as `pre ++ e :: post` with no entity of `post` having the id of `e`. -/
theorem saveProducts_last_write_wins (db : LocalDB) (calls : List (List Entity))
    (pre post : List Entity) (e : Entity)
    (hsplit : calls.flatten = pre ++ e :: post)
    (hlast : ∀ x ∈ post, x.id ≠ e.id) :
    getProduct (calls.foldl saveProducts db).products e.id = some e := by
  rw [foldl_saveProducts_products, hsplit]
  have : bulkPut db.products (pre ++ e :: post)
      = bulkPut (putProduct (bulkPut db.products pre) e) post := by
    simp [bulkPut, List.foldl_append]
  rw [this, getProduct_bulkPut_of_absent _ _ _ hlast, getProduct_putProduct, if_pos rfl]

/-- Witness of C1: two calls that both write id "a", the second one twice, onto a store
that already holds "a". -/
theorem saveProducts_last_write_wins_witness :
    getProduct
      ([[⟨"a", some "t1", none, none, []⟩, ⟨"b", none, none, none, []⟩],
        [⟨"a", some "t2", none, none, []⟩, ⟨"a", none, some "s3", none, []⟩]].foldl saveProducts
        ⟨[⟨"a", some "t0", some "s0", none, []⟩], [], 1⟩).products
      (Entity.mk "a" none (some "s3") none []).id
      = some ⟨"a", none, some "s3", none, []⟩ :=
  saveProducts_last_write_wins ⟨[⟨"a", some "t0", some "s0", none, []⟩], [], 1⟩
    [[⟨"a", some "t1", none, none, []⟩, ⟨"b", none, none, none, []⟩],
     [⟨"a", some "t2", none, none, []⟩, ⟨"a", none, some "s3", none, []⟩]]
    [⟨"a", some "t1", none, none, []⟩, ⟨"b", none, none, none, []⟩,
     ⟨"a", some "t2", none, none, []⟩]
    [] ⟨"a", none, some "s3", none, []⟩ rfl (by simp)

/-- C2: in every reachable state `drainSyncQueue` returns exactly the rows of the sync
queue, in strictly ascending order of their keys, leaves the queue empty and the
products untouched; on an empty queue it returns `[]` and the whole database is
unchanged. -/
theorem drainSyncQueue_returns_all_ascending (db : LocalDB) (h : Reachable db) :
    (drainSyncQueue db).1 = db.syncQueue ∧
    (drainSyncQueue db).1.Pairwise (fun a b => a.id < b.id) ∧
    (drainSyncQueue db).2.syncQueue = [] ∧
    (drainSyncQueue db).2.products = db.products ∧
    (db.syncQueue = [] → (drainSyncQueue db).1 = [] ∧ (drainSyncQueue db).2 = db) := by
  refine ⟨rfl, (queueOrdered_of_reachable h).1, rfl, rfl, ?_⟩
  intro he
  refine ⟨he, ?_⟩
  cases db with
  | mk products syncQueue nextId =>
    simp only at he
    subst he
    rfl

/-- Witness of C2: a queue of two items, reached from the empty database by two
`enqueueSync` calls. -/
theorem drainSyncQueue_returns_all_ascending_witness :
    Reachable (enqueueSync (enqueueSync LocalDB.empty "upload" ⟨some "YQ==", none, []⟩ "t2")
      "upload" ⟨some "Yg==", some "b.csv", []⟩ "t1") ∧
    (drainSyncQueue (enqueueSync (enqueueSync LocalDB.empty "upload" ⟨some "YQ==", none, []⟩ "t2")
      "upload" ⟨some "Yg==", some "b.csv", []⟩ "t1")).1
      = [⟨1, "upload", ⟨some "YQ==", none, []⟩, "t2"⟩,
         ⟨2, "upload", ⟨some "Yg==", some "b.csv", []⟩, "t1"⟩] :=
  ⟨Reachable.enqueueSync _ _ _ (Reachable.enqueueSync _ _ _ Reachable.empty),
   (drainSyncQueue_returns_all_ascending _
      (Reachable.enqueueSync "upload" ⟨some "Yg==", some "b.csv", []⟩ "t1"
        (Reachable.enqueueSync "upload" ⟨some "YQ==", none, []⟩ "t2" Reachable.empty))).1.trans
     (by decide)⟩

/-- C3: enqueuing any list of (type, payload) pairs, each at its own clock value, onto
a database whose queue is empty and then draining returns one item per pair, in
enqueue order, with the type, payload (and timestamp) that were enqueued, under
strictly ascending keys. -/
theorem enqueue_then_drain_roundtrip (db : LocalDB) (hempty : db.syncQueue = [])
    (ops : List (String × Payload × String)) :
    (drainSyncQueue (enqueueAll db ops)).1.map (fun it => (it.kind, it.payload, it.createdAt))
      = ops ∧
    (drainSyncQueue (enqueueAll db ops)).1.length = ops.length ∧
    (drainSyncQueue (enqueueAll db ops)).1.Pairwise (fun a b => a.id < b.id) := by
  have hq : QueueOrdered db := by
    refine ⟨?_, ?_⟩
    · rw [hempty]; exact List.Pairwise.nil
    · intro it hit; rw [hempty] at hit; exact absurd hit (List.not_mem_nil _)
  have h := enqueueAll_spec ops db hq
  have hmap : (enqueueAll db ops).syncQueue.map (fun it => (it.kind, it.payload, it.createdAt))
      = ops := by
    rw [h.2, hempty]; rfl
  refine ⟨hmap, ?_, h.1.1⟩
  have := congrArg List.length hmap
  simpa using this

/-- Witness of C3: two uploads and an update enqueued after an earlier drain (key
generator at 5). -/
theorem enqueue_then_drain_roundtrip_witness :
    (LocalDB.mk [] [] 5).syncQueue = [] ∧
    (drainSyncQueue (enqueueAll ⟨[], [], 5⟩
      [("upload", ⟨some "YQ==", some "a.csv", []⟩, "t9"),
       ("update", ⟨none, none, [("id", "p1")]⟩, "t3"),
       ("upload", ⟨some "Yg==", none, []⟩, "t3")])).1
      = [⟨5, "upload", ⟨some "YQ==", some "a.csv", []⟩, "t9"⟩,
         ⟨6, "update", ⟨none, none, [("id", "p1")]⟩, "t3"⟩,
         ⟨7, "upload", ⟨some "Yg==", none, []⟩, "t3"⟩] ∧
    (drainSyncQueue (enqueueAll ⟨[], [], 5⟩
      [("upload", ⟨some "YQ==", some "a.csv", []⟩, "t9"),
       ("update", ⟨none, none, [("id", "p1")]⟩, "t3"),
       ("upload", ⟨some "Yg==", none, []⟩, "t3")])).1.length = 3 :=
  ⟨rfl, by decide,
   (enqueue_then_drain_roundtrip ⟨[], [], 5⟩ rfl
      [("upload", ⟨some "YQ==", some "a.csv", []⟩, "t9"),
       ("update", ⟨none, none, [("id", "p1")]⟩, "t3"),
       ("upload", ⟨some "Yg==", none, []⟩, "t3")]).2.1⟩

/-- C4 as stated fails: with two decodable uploads queued and the client online, the
request for item 1 is issued when the queue no longer holds item 1 nor the later item
2, so "every item from the requested one on is still in the queue when its request is
issued" does not hold of this run. -/
theorem processSyncQueue_request_after_removal :
    ¬ (∀ (itemId : Nat) (req : UploadRequest) (queue : List QueueItem),
        SyncEvent.request itemId req queue ∈
          (processSyncQueue ⟨true, none, some "tok"⟩ (fun _ => .resolved ⟨200, [], ""⟩)
            ⟨[], [⟨1, "upload", ⟨some "YQ==", some "a.csv", []⟩, "t1"⟩,
                  ⟨2, "upload", ⟨some "Yg==", some "b.csv", []⟩, "t2"⟩], 3⟩).trace →
        ∀ item ∈ (LocalDB.mk [] [⟨1, "upload", ⟨some "YQ==", some "a.csv", []⟩, "t1"⟩,
                  ⟨2, "upload", ⟨some "Yg==", some "b.csv", []⟩, "t2"⟩] 3).syncQueue,
          itemId ≤ item.id → item ∈ queue) := by
  intro h
  have h1 := h 1 ⟨"http://localhost:3000/api/inventory/upload", "POST",
      [("Authorization", "Bearer tok")], "a.csv", "text/csv", [97]⟩ [] (by decide)
      ⟨1, "upload", ⟨some "YQ==", some "a.csv", []⟩, "t1"⟩ (by decide) (by decide)
  exact absurd h1 (List.not_mem_nil _)

/-- C4, amended: `processSyncQueue` empties the durable queue before it replays
anything; whenever an upload request is issued, the queue holds no item at all, and
it is still empty when the run ends. -/
theorem processSyncQueue_queue_empty_at_request (env : SyncEnv) (net : Nat → FetchOutcome)
    (db : LocalDB) (itemId : Nat) (req : UploadRequest) (queue : List QueueItem)
    (h : SyncEvent.request itemId req queue ∈ (processSyncQueue env net db).trace) :
    queue = [] ∧ (processSyncQueue env net db).db.syncQueue = [] := by
  cases hon : env.onLine with
  | false =>
    have : (processSyncQueue env net db).trace = [] := by
      unfold processSyncQueue
      simp [hon]
    rw [this] at h
    exact absurd h (List.not_mem_nil _)
  | true =>
    have hrun := processSyncQueue_online env net db hon
    rw [hrun.2] at h
    rw [hrun.1]
    refine ⟨?_, rfl⟩
    split_ifs at h with hlen
    · exact absurd h (List.not_mem_nil _)
    · rw [List.mem_cons] at h
      rcases h with h | h
      · cases h
      · obtain ⟨item, _, hev⟩ := (mem_replayLoop env net _ _ _).mp h
        exact (request_mem_replayItem env net _ item itemId req queue hev).1

/-- Witness of the amended C4: the request of the second of two queued uploads. -/
theorem processSyncQueue_queue_empty_at_request_witness :
    SyncEvent.request 2 ⟨"http://localhost:3000/api/inventory/upload", "POST",
        [("Authorization", "Bearer tok")], "b.csv", "text/csv", [98]⟩ [] ∈
      (processSyncQueue ⟨true, none, some "tok"⟩ (fun _ => .resolved ⟨200, [], ""⟩)
        ⟨[], [⟨1, "upload", ⟨some "YQ==", some "a.csv", []⟩, "t1"⟩,
              ⟨2, "upload", ⟨some "Yg==", some "b.csv", []⟩, "t2"⟩], 3⟩).trace ∧
    (processSyncQueue ⟨true, none, some "tok"⟩ (fun _ => .resolved ⟨200, [], ""⟩)
        ⟨[], [⟨1, "upload", ⟨some "YQ==", some "a.csv", []⟩, "t1"⟩,
              ⟨2, "upload", ⟨some "Yg==", some "b.csv", []⟩, "t2"⟩], 3⟩).db.syncQueue = [] :=
  ⟨by decide,
   (processSyncQueue_queue_empty_at_request ⟨true, none, some "tok"⟩
      (fun _ => .resolved ⟨200, [], ""⟩)
      ⟨[], [⟨1, "upload", ⟨some "YQ==", some "a.csv", []⟩, "t1"⟩,
            ⟨2, "upload", ⟨some "Yg==", some "b.csv", []⟩, "t2"⟩], 3⟩
      2 ⟨"http://localhost:3000/api/inventory/upload", "POST",
        [("Authorization", "Bearer tok")], "b.csv", "text/csv", [98]⟩ [] (by decide)).2⟩

/-- C6: online and in a reachable state, `processSyncQueue` issues its upload requests
in strictly ascending order of the queue keys: the keys of the requests are those of
the replayable items in queue order, each request is settled and logged before the
next one is issued, and rewriting the `createdAt` stamps of the queued items in any
way leaves the sequence of requests the same. -/
theorem processSyncQueue_replays_in_key_order (env : SyncEnv) (net : Nat → FetchOutcome)
    (db : LocalDB) (h : Reachable db) (hon : env.onLine = true) :
    ((requestsOf (processSyncQueue env net db).trace).map (fun p => p.1)).Pairwise
      (fun a b => a < b) ∧
    (requestsOf (processSyncQueue env net db).trace).map (fun p => p.1)
      = (db.syncQueue.filter (fun item => (uploadBytes item).isSome)).map (fun item => item.id) ∧
    settlesInTurn (processSyncQueue env net db).trace = true ∧
    ∀ stamp : QueueItem → String,
      requestsOf (processSyncQueue env net
          { db with syncQueue := db.syncQueue.map (fun it => { it with createdAt := stamp it }) }).trace
        = requestsOf (processSyncQueue env net db).trace := by
  have hkeys : (requestsOf (processSyncQueue env net db).trace).map (fun p => p.1)
      = (db.syncQueue.filter (fun item => (uploadBytes item).isSome)).map (fun item => item.id) := by
    rw [requestsOf_processSyncQueue env net db hon, map_fst_filterMap_uploads]
  refine ⟨?_, hkeys, ?_, ?_⟩
  · rw [hkeys]
    have hsorted : (db.syncQueue.map (fun item => item.id)).Pairwise (fun a b => a < b) :=
      List.pairwise_map.mpr (queueOrdered_of_reachable h).1
    exact hsorted.sublist (List.Sublist.map _ (List.filter_sublist _))
  · rw [(processSyncQueue_online env net db hon).2]
    split_ifs with hlen
    · rfl
    · show settlesInTurn (replayLoop env net _ db.syncQueue) = true
      exact settlesInTurn_replayLoop env net _ _
  · intro stamp
    rw [requestsOf_processSyncQueue env net _ hon, requestsOf_processSyncQueue env net db hon]
    show List.filterMap _ (db.syncQueue.map _) = _
    rw [List.filterMap_map]
    rfl

/-- Witness of C6: two uploads whose stamps run against their keys ("t9" before "t1")
are replayed in key order 1, 2. -/
theorem processSyncQueue_replays_in_key_order_witness :
    Reachable (enqueueSync (enqueueSync LocalDB.empty "upload" ⟨some "YQ==", some "a.csv", []⟩ "t9")
      "upload" ⟨some "Yg==", none, []⟩ "t1") ∧
    (SyncEnv.mk true none (some "tok")).onLine = true ∧
    (requestsOf (processSyncQueue ⟨true, none, some "tok"⟩
        (fun n => if n = 1 then .rejected "Failed to fetch" else .resolved ⟨200, [], ""⟩)
        (enqueueSync (enqueueSync LocalDB.empty "upload" ⟨some "YQ==", some "a.csv", []⟩ "t9")
          "upload" ⟨some "Yg==", none, []⟩ "t1")).trace).map (fun p => p.1) = [1, 2] :=
  ⟨Reachable.enqueueSync _ _ _ (Reachable.enqueueSync _ _ _ Reachable.empty), rfl,
   (processSyncQueue_replays_in_key_order ⟨true, none, some "tok"⟩
      (fun n => if n = 1 then .rejected "Failed to fetch" else .resolved ⟨200, [], ""⟩)
      (enqueueSync (enqueueSync LocalDB.empty "upload" ⟨some "YQ==", some "a.csv", []⟩ "t9")
        "upload" ⟨some "Yg==", none, []⟩ "t1")
      (Reachable.enqueueSync "upload" ⟨some "Yg==", none, []⟩ "t1"
        (Reachable.enqueueSync "upload" ⟨some "YQ==", some "a.csv", []⟩ "t9" Reachable.empty))
      rfl).2.1.trans (by decide)⟩

/-- C7 fails on the code: the `upload` item the wizard queues for an empty file has
`fileBase64 = ""`, and for it `processSyncQueue` issues no request at all, although
the item is taken off the queue; the same empty file confirmed online is uploaded. -/
theorem processSyncQueue_skips_empty_upload :
    (nextBtn2Click false (some "tok") ⟨"empty.csv", "text/csv", []⟩ "t1"
        (.networkError "") LocalDB.empty).db.syncQueue
      = [⟨1, "upload", ⟨some "", some "empty.csv", []⟩, "t1"⟩] ∧
    requestsOf (processSyncQueue ⟨true, none, some "tok"⟩ (fun _ => .resolved ⟨200, [], ""⟩)
      ⟨[], [⟨1, "upload", ⟨some "", some "empty.csv", []⟩, "t1"⟩], 2⟩).trace = [] ∧
    (processSyncQueue ⟨true, none, some "tok"⟩ (fun _ => .resolved ⟨200, [], ""⟩)
      ⟨[], [⟨1, "upload", ⟨some "", some "empty.csv", []⟩, "t1"⟩], 2⟩).db.syncQueue = [] ∧
    (nextBtn2Click true (some "tok") ⟨"empty.csv", "text/csv", []⟩ "t1"
        (.json 200 none (some "ok")) LocalDB.empty).requests
      = [⟨"http://localhost:3000/api/inventory/upload", "POST",
          [("Authorization", "Bearer tok")], "empty.csv", "text/csv", []⟩] := by
  decide

/-- Failures do not stop the loop: online, whatever the outcome of each upload request,
`processSyncQueue` issues the upload request of every queued `upload` item whose
`fileBase64` is present, non-empty and decodable, and its promise is fulfilled, never
rejected. -/
theorem processSyncQueue_replays_every_decodable_upload (env : SyncEnv)
    (net : Nat → FetchOutcome) (db : LocalDB) (hon : env.onLine = true)
    (item : QueueItem) (hitem : item ∈ db.syncQueue)
    (b64 : String) (bytes : List Nat)
    (hkind : item.kind = "upload") (hfile : item.payload.fileBase64 = some b64)
    (hne : b64 ≠ "") (hdec : atob b64 = some bytes) :
    (item.id, replayRequest env item bytes) ∈ requestsOf (processSyncQueue env net db).trace ∧
    (processSyncQueue env net db).result = .fulfilled .undefined := by
  refine ⟨?_, processSyncQueue_result env net db⟩
  rw [requestsOf_processSyncQueue env net db hon, List.mem_filterMap]
  refine ⟨item, hitem, ?_⟩
  have : uploadBytes item = some bytes := by
    simp [uploadBytes, hkind, hfile, truthy, hne, hdec]
  rw [this]
  rfl

/-- An instance of the loop going on after failures: three queued uploads, the first
two requests failing; the third is issued all the same. -/
theorem processSyncQueue_replays_every_decodable_upload_witness :
    (3, (⟨"http://localhost:3000/api/inventory/upload", "POST", [], "inventory.csv",
        "text/csv", [99]⟩ : UploadRequest)) ∈
      requestsOf (processSyncQueue ⟨true, none, none⟩ (fun n => if n < 3 then .rejected "Failed to fetch" else .resolved ⟨200, [], ""⟩)
        ⟨[], [⟨1, "upload", ⟨some "YQ==", some "a.csv", []⟩, "t1"⟩,
              ⟨2, "upload", ⟨some "Yg==", some "b.csv", []⟩, "t2"⟩,
              ⟨3, "upload", ⟨some "Yw==", none, []⟩, "t3"⟩], 4⟩).trace :=
  (processSyncQueue_replays_every_decodable_upload ⟨true, none, none⟩
      (fun n => if n < 3 then .rejected "Failed to fetch" else .resolved ⟨200, [], ""⟩)
      ⟨[], [⟨1, "upload", ⟨some "YQ==", some "a.csv", []⟩, "t1"⟩,
            ⟨2, "upload", ⟨some "Yg==", some "b.csv", []⟩, "t2"⟩,
            ⟨3, "upload", ⟨some "Yw==", none, []⟩, "t3"⟩], 4⟩
      rfl ⟨3, "upload", ⟨some "Yw==", none, []⟩, "t3"⟩ (by decide) "Yw==" [99] rfl rfl
      (by decide) (by decide)).1

/-- C8 as stated fails: with three uploads queued and the second answered by an error
response (status 500), the run returns `undefined`, not a summary with succeeded = 2
and failed = 1, and the console shows three completion entries and no error entry. -/
theorem processSyncQueue_reports_no_summary :
    (processSyncQueue ⟨true, none, some "tok"⟩
        (fun n => if n = 2 then .resolved ⟨500, [], ""⟩ else .resolved ⟨200, [], ""⟩)
        ⟨[], [⟨1, "upload", ⟨some "YQ==", some "a.csv", []⟩, "t1"⟩,
              ⟨2, "upload", ⟨some "Yg==", some "b.csv", []⟩, "t2"⟩,
              ⟨3, "upload", ⟨some "Yw==", some "c.csv", []⟩, "t3"⟩], 4⟩).result
      ≠ .fulfilled (.record [("succeeded", 2), ("failed", 1)]) ∧
    (processSyncQueue ⟨true, none, some "tok"⟩
        (fun n => if n = 2 then .resolved ⟨500, [], ""⟩ else .resolved ⟨200, [], ""⟩)
        ⟨[], [⟨1, "upload", ⟨some "YQ==", some "a.csv", []⟩, "t1"⟩,
              ⟨2, "upload", ⟨some "Yg==", some "b.csv", []⟩, "t2"⟩,
              ⟨3, "upload", ⟨some "Yw==", some "c.csv", []⟩, "t3"⟩], 4⟩).result
      = .fulfilled .undefined ∧
    doneCount (processSyncQueue ⟨true, none, some "tok"⟩
        (fun n => if n = 2 then .resolved ⟨500, [], ""⟩ else .resolved ⟨200, [], ""⟩)
        ⟨[], [⟨1, "upload", ⟨some "YQ==", some "a.csv", []⟩, "t1"⟩,
              ⟨2, "upload", ⟨some "Yg==", some "b.csv", []⟩, "t2"⟩,
              ⟨3, "upload", ⟨some "Yw==", some "c.csv", []⟩, "t3"⟩], 4⟩).trace = 3 ∧
    errorCount (processSyncQueue ⟨true, none, some "tok"⟩
        (fun n => if n = 2 then .resolved ⟨500, [], ""⟩ else .resolved ⟨200, [], ""⟩)
        ⟨[], [⟨1, "upload", ⟨some "YQ==", some "a.csv", []⟩, "t1"⟩,
              ⟨2, "upload", ⟨some "Yg==", some "b.csv", []⟩, "t2"⟩,
              ⟨3, "upload", ⟨some "Yw==", some "c.csv", []⟩, "t3"⟩], 4⟩).trace = 0 := by
  decide

/-- C8, amended: `processSyncQueue` returns no summary; its promise is always
fulfilled with `undefined` and the drained items are not put back. The outcome of an
item shows in the console only: online, a queued decodable upload whose request is
rejected with a network error gets an error entry carrying that error, and one whose
request is answered with an ok response gets a completion entry. -/
theorem processSyncQueue_outcome_only_logged (env : SyncEnv) (net : Nat → FetchOutcome)
    (db : LocalDB) (hon : env.onLine = true)
    (item : QueueItem) (hitem : item ∈ db.syncQueue)
    (b64 : String) (bytes : List Nat)
    (hkind : item.kind = "upload") (hfile : item.payload.fileBase64 = some b64)
    (hne : b64 ≠ "") (hdec : atob b64 = some bytes) :
    (processSyncQueue env net db).result = .fulfilled .undefined ∧
    (processSyncQueue env net db).db.syncQueue = [] ∧
    (∀ message, net item.id = .rejected message →
      SyncEvent.logError item.id message ∈ (processSyncQueue env net db).trace) ∧
    (∀ response, net item.id = .resolved response → response.ok = true →
      SyncEvent.logDone item.id ∈ (processSyncQueue env net db).trace) := by
  have hguard : (item.kind = "upload" && truthy item.payload.fileBase64) = true := by
    simp [hkind, hfile, truthy, hne]
  have hatob : atob (item.payload.fileBase64.getD "") = some bytes := by
    rw [hfile]; exact hdec
  refine ⟨processSyncQueue_result env net db, ?_, ?_, ?_⟩
  · rw [(processSyncQueue_online env net db hon).1]; rfl
  · intro message hn
    apply mem_trace_processSyncQueue env net db hon item hitem
    rw [replayItem_of_rejected env net _ item bytes message hguard hatob hn]
    simp
  · intro response hn _
    apply mem_trace_processSyncQueue env net db hon item hitem
    rw [replayItem_of_resolved env net _ item bytes response hguard hatob hn]
    simp

/-- Witness of the amended C8: of three queued uploads the second is rejected by the
network; its error is logged. -/
theorem processSyncQueue_outcome_only_logged_witness :
    SyncEvent.logError 2 "Failed to fetch" ∈
      (processSyncQueue ⟨true, none, some "tok"⟩
        (fun n => if n = 2 then .rejected "Failed to fetch" else .resolved ⟨200, [], ""⟩)
        ⟨[], [⟨1, "upload", ⟨some "YQ==", some "a.csv", []⟩, "t1"⟩,
              ⟨2, "upload", ⟨some "Yg==", some "b.csv", []⟩, "t2"⟩,
              ⟨3, "upload", ⟨some "Yw==", some "c.csv", []⟩, "t3"⟩], 4⟩).trace :=
  (processSyncQueue_outcome_only_logged ⟨true, none, some "tok"⟩
      (fun n => if n = 2 then .rejected "Failed to fetch" else .resolved ⟨200, [], ""⟩)
      ⟨[], [⟨1, "upload", ⟨some "YQ==", some "a.csv", []⟩, "t1"⟩,
            ⟨2, "upload", ⟨some "Yg==", some "b.csv", []⟩, "t2"⟩,
            ⟨3, "upload", ⟨some "Yw==", some "c.csv", []⟩, "t3"⟩], 4⟩
      rfl ⟨2, "upload", ⟨some "Yg==", some "b.csv", []⟩, "t2"⟩ (by decide) "Yg==" [98] rfl rfl
      (by decide) (by decide)).2.2.1 "Failed to fetch" rfl

/-- C9 fails on the code: a queued `update` item and a queued `delete` item are taken
off the queue by `processSyncQueue` while online, and no request is issued for either
of them. -/
theorem processSyncQueue_drops_update_and_delete :
    (processSyncQueue ⟨true, none, some "tok"⟩ (fun _ => .resolved ⟨200, [], ""⟩)
        (enqueueSync (enqueueSync LocalDB.empty
          "update" ⟨none, none, [("id", "p1"), ("title", "Mesa")]⟩ "t1")
          "delete" ⟨none, none, [("id", "p2")]⟩ "t2")).db.syncQueue = [] ∧
    (processSyncQueue ⟨true, none, some "tok"⟩ (fun _ => .resolved ⟨200, [], ""⟩)
        (enqueueSync (enqueueSync LocalDB.empty
          "update" ⟨none, none, [("id", "p1"), ("title", "Mesa")]⟩ "t1")
          "delete" ⟨none, none, [("id", "p2")]⟩ "t2")).trace = [.logPending 2] ∧
    requestsOf (processSyncQueue ⟨true, none, some "tok"⟩ (fun _ => .resolved ⟨200, [], ""⟩)
        (enqueueSync (enqueueSync LocalDB.empty
          "update" ⟨none, none, [("id", "p1"), ("title", "Mesa")]⟩ "t1")
          "delete" ⟨none, none, [("id", "p2")]⟩ "t2")).trace = [] := by
  decide

/-- C5 as stated fails: online, when the upload fetch is rejected with a network
error, the handler shows the error and enqueues nothing. -/
theorem nextBtn2Click_network_error_not_queued :
    (nextBtn2Click true (some "tok") ⟨"inv.csv", "text/csv", [97, 44, 98]⟩ "t1"
        (.networkError "Failed to fetch") LocalDB.empty).db.syncQueue = [] ∧
    (nextBtn2Click true (some "tok") ⟨"inv.csv", "text/csv", [97, 44, 98]⟩ "t1"
        (.networkError "Failed to fetch") LocalDB.empty).shown = ⟨false, "Failed to fetch"⟩ := by
  decide

/-- C5, amended: when the upload is confirmed while the client is offline, the file is
appended to the sync queue as an `upload` item holding the base64 of its content and
its name, under a fresh key, and no request is issued; when the client is online the
handler issues the upload once and leaves the database as it was, whatever becomes of
the request; a fetch rejected with a network error is shown as a failed result that
carries the error's message. -/
theorem nextBtn2Click_queues_when_offline (token : Option String) (selectedFile : File)
    (now : String) (reply : UploadReply) (db : LocalDB) (h : Reachable db) :
    (nextBtn2Click false token selectedFile now reply db).db.syncQueue
      = db.syncQueue ++
          [⟨db.nextId, "upload", ⟨some (btoa selectedFile.bytes), some selectedFile.name, []⟩, now⟩] ∧
    (nextBtn2Click false token selectedFile now reply db).db.products = db.products ∧
    (nextBtn2Click false token selectedFile now reply db).requests = [] ∧
    (nextBtn2Click true token selectedFile now reply db).db = db ∧
    (nextBtn2Click true token selectedFile now reply db).requests.length = 1 ∧
    (∀ message : String,
      (nextBtn2Click true token selectedFile now (.networkError message) db).shown
        = ⟨false, message⟩ ∧
      (nextBtn2Click true token selectedFile now (.networkError message) db).db = db ∧
      (nextBtn2Click true token selectedFile now (.networkError message) db).requests
        = [⟨"http://localhost:3000/api/inventory/upload", "POST", authHeaders token,
            selectedFile.name, selectedFile.type, selectedFile.bytes⟩]) ∧
    (nextBtn2Click false token selectedFile now reply db).shown.success = false := by
  refine ⟨enqueueSync_syncQueue db (queueOrdered_of_reachable h) _ _ _, rfl, rfl, ?_, ?_,
    fun _ => ⟨rfl, rfl, rfl⟩, rfl⟩
  · unfold nextBtn2Click
    cases reply with
    | networkError message => rfl
    | notJson status message => rfl
    | json status error message =>
      simp only [Bool.not_true, Bool.false_eq_true, if_false]
      split_ifs <;> rfl
  · unfold nextBtn2Click
    cases reply with
    | networkError message => rfl
    | notJson status message => rfl
    | json status error message =>
      simp only [Bool.not_true, Bool.false_eq_true, if_false]
      split_ifs <;> rfl

/-- Witness of the amended C5: a three-byte file confirmed offline on top of one
earlier queued item. -/
theorem nextBtn2Click_queues_when_offline_witness :
    Reachable (enqueueSync LocalDB.empty "upload" ⟨some "YQ==", some "a.csv", []⟩ "t0") ∧
    (nextBtn2Click false (some "tok") ⟨"inv.csv", "text/csv", [97, 44, 98]⟩ "t1"
        (.networkError "") (enqueueSync LocalDB.empty "upload" ⟨some "YQ==", some "a.csv", []⟩ "t0")).db.syncQueue
      = [⟨1, "upload", ⟨some "YQ==", some "a.csv", []⟩, "t0"⟩,
         ⟨2, "upload", ⟨some "YSxi", some "inv.csv", []⟩, "t1"⟩] :=
  ⟨Reachable.enqueueSync _ _ _ Reachable.empty,
   (nextBtn2Click_queues_when_offline (some "tok") ⟨"inv.csv", "text/csv", [97, 44, 98]⟩ "t1"
      (.networkError "") (enqueueSync LocalDB.empty "upload" ⟨some "YQ==", some "a.csv", []⟩ "t0")
      (Reachable.enqueueSync "upload" ⟨some "YQ==", some "a.csv", []⟩ "t0" Reachable.empty)).1.trans
     (by decide)⟩

/-- C10 fails on the code: a GET request of the API answered with status 206 gets
an ok response, which `networkFirst` returns, but the cache has no entry for the
request afterwards, since the `cache.put` that the function starts and does not await
is rejected for a partial response; the same holds for a response whose `Vary` header
lists `*`. A response with status 200 is stored. -/
theorem networkFirst_partial_response_not_cached :
    (Request.mk "https://h/api/inventory" "GET" "cors").method = "GET" ∧
    Response.ok ⟨206, [], "part"⟩ = true ∧
    networkFirst [] ⟨"https://h/api/inventory", "GET", "cors"⟩ (.resolved ⟨206, [], "part"⟩)
      = (⟨206, [], "part"⟩, []) ∧
    cacheMatch
      (networkFirst [] ⟨"https://h/api/inventory", "GET", "cors"⟩
        (.resolved ⟨206, [], "part"⟩)).2
      ⟨"https://h/api/inventory", "GET", "cors"⟩ = none ∧
    networkFirst [] ⟨"https://h/api/inventory", "GET", "cors"⟩
        (.resolved ⟨200, [("vary", "Accept, *")], "all"⟩)
      = (⟨200, [("vary", "Accept, *")], "all"⟩, []) ∧
    cacheMatch
      (networkFirst [] ⟨"https://h/api/inventory", "GET", "cors"⟩
        (.resolved ⟨200, [], "all"⟩)).2
      ⟨"https://h/api/inventory", "GET", "cors"⟩ = some ⟨200, [], "all"⟩ := by
  decide

/-- When `fetch` resolves with a response, `networkFirst` returns that response
whatever the cache holds; it starts a `cache.put` if the method is GET and the response
is ok and leaves the cache alone otherwise. A put that is accepted stores the response
under the URL of the request and leaves every other URL as it was; a put that is
rejected leaves the cache as it was. -/
theorem networkFirst_resolved (cache : Cache) (request : Request) (response : Response) :
    (networkFirst cache request (.resolved response)).1 = response ∧
    (networkFirst cache request (.resolved response)).2
      = (if request.method = "GET" ∧ response.ok = true then cachePut cache request response
         else cache) ∧
    (putAccepted request response = true → ∀ other : Request,
      cacheMatch (cachePut cache request response) other
        = if other.method = "GET" then
            (if other.url = request.url then some response else cacheMatch cache other)
          else none) ∧
    (putAccepted request response = false → cachePut cache request response = cache) := by
  refine ⟨?_, ?_, cacheMatch_cachePut cache request response,
    cachePut_of_rejected cache request response⟩
  · unfold networkFirst
    simp only
    split_ifs <;> rfl
  · unfold networkFirst
    simp only
    by_cases hm : request.method = "GET" <;> by_cases ho : response.ok = true <;>
      simp [hm, ho]

/-- C11 fails on the code: starting from an empty cache, a call on a GET request whose
network attempt resolves with status 206 (an ok response) is followed by a call whose
network attempt throws; the second call returns the synthesized 503 response, not the
response of the first call, because the first response was never stored. -/
theorem networkFirst_partial_response_not_served :
    Response.ok ⟨206, [], "part"⟩ = true ∧
    (networkFirstCalls [] ⟨"https://h/api/inventory", "GET", "cors"⟩
        [.resolved ⟨206, [], "part"⟩, .rejected "down"]).1
      = [⟨206, [], "part"⟩, offlineResponse] ∧
    (networkFirstCalls [] ⟨"https://h/api/inventory", "GET", "cors"⟩
        [.resolved ⟨206, [], "part"⟩, .rejected "down"]).1[1]?
      ≠ some ⟨206, [], "part"⟩ ∧
    (networkFirstCalls [] ⟨"https://h/api/inventory", "GET", "cors"⟩
        [.resolved ⟨200, [], "all"⟩, .rejected "down"]).1
      = [⟨200, [], "all"⟩, ⟨200, [], "all"⟩] := by
  decide

/-- In any run of `networkFirst` calls on one GET request, whatever the cache at the
start, a call whose network attempt throws returns the response of the most recent
earlier call whose network attempt resolved with an ok response, provided the
`cache.put` of that response was accepted. The run is split as `earlier`, the ok
response, `later` (calls that threw or got a response that is not ok), the call that
throws, and `rest`; the response at the position of the throwing call is the ok
response. -/
theorem networkFirst_serves_last_ok_response (cache : Cache) (request : Request)
    (hget : request.method = "GET")
    (earlier : List FetchOutcome) (response : Response) (hok : response.ok = true)
    (hput : putAccepted request response = true)
    (later : List FetchOutcome)
    (hlater : ∀ o ∈ later, ∀ r, o = FetchOutcome.resolved r → r.ok = false)
    (message : String) (rest : List FetchOutcome) :
    (networkFirstCalls cache request
        (earlier ++ .resolved response :: (later ++ .rejected message :: rest))).1[
          earlier.length + 1 + later.length]?
      = some response := by
  rw [networkFirstCalls_append]
  simp only
  generalize hc1 : (networkFirstCalls cache request earlier).2 = c1
  have hlen1 := networkFirstCalls_length cache request earlier
  generalize (networkFirstCalls cache request earlier).1 = r1 at hlen1
  have htail : (networkFirstCalls c1 request
      (.resolved response :: (later ++ .rejected message :: rest))).1[1 + later.length]?
      = some response := by
    simp only [networkFirstCalls]
    generalize hc2 : (networkFirst c1 request (.resolved response)).2 = c2
    have hm : cacheMatch c2 request = some response := by
      rw [← hc2]; exact cacheMatch_after_ok c1 request response hget hok hput
    rw [networkFirstCalls_append]
    simp only
    rw [networkFirstCalls_cache_of_not_ok c2 request later hlater]
    have hlen2 := networkFirstCalls_length c2 request later
    generalize (networkFirstCalls c2 request later).1 = r2 at hlen2
    simp only [networkFirstCalls, networkFirst_of_rejected_cached c2 request message response hm]
    rw [Nat.add_comm 1 later.length, List.getElem?_cons_succ, ← hlen2,
      List.getElem?_append_right (Nat.le_refl _), Nat.sub_self]
    exact List.getElem?_cons_zero
  rw [show earlier.length + 1 + later.length = r1.length + (1 + later.length) by omega]
  rw [List.getElem?_append_right (by omega)]
  simpa using htail

/-- An instance of the fallback: an ok response, then an error response, then two
throwing calls with a stale entry in the cache at the start; both throwing calls
return the ok response. -/
theorem networkFirst_serves_last_ok_response_witness :
    (Request.mk "https://h/api/inventory" "GET" "cors").method = "GET" ∧
    (networkFirstCalls [("https://h/api/inventory", ⟨200, [], "old"⟩)]
        ⟨"https://h/api/inventory", "GET", "cors"⟩
        ([.rejected "down"] ++ .resolved ⟨200, [], "A"⟩ ::
          ([.resolved ⟨500, [], "B"⟩, .rejected "down"] ++ .rejected "down" :: []))).1
      = [⟨200, [], "old"⟩, ⟨200, [], "A"⟩, ⟨500, [], "B"⟩, ⟨200, [], "A"⟩, ⟨200, [], "A"⟩] ∧
    (networkFirstCalls [("https://h/api/inventory", ⟨200, [], "old"⟩)]
        ⟨"https://h/api/inventory", "GET", "cors"⟩
        ([.rejected "down"] ++ .resolved ⟨200, [], "A"⟩ ::
          ([.resolved ⟨500, [], "B"⟩, .rejected "down"] ++ .rejected "down" :: []))).1[
            [FetchOutcome.rejected "down"].length + 1
              + [FetchOutcome.resolved ⟨500, [], "B"⟩, FetchOutcome.rejected "down"].length]?
      = some ⟨200, [], "A"⟩ :=
  ⟨rfl, by decide,
   networkFirst_serves_last_ok_response [("https://h/api/inventory", ⟨200, [], "old"⟩)]
     ⟨"https://h/api/inventory", "GET", "cors"⟩ rfl [.rejected "down"] ⟨200, [], "A"⟩ rfl
     (by decide) [.resolved ⟨500, [], "B"⟩, .rejected "down"]
     (by
       intro o ho r hr
       subst hr
       rcases List.mem_cons.mp ho with h | h
       · cases h; rfl
       · simp at h)
     "down" []⟩

/-- C12: when the network attempt throws and the cache has no entry matching the
request, `networkFirst` returns normally with the synthesized response: status 503,
header `Content-Type: application/json`, and the JSON object with the single field
`error` as body; the cache is left as it was. -/
theorem networkFirst_offline_response (cache : Cache) (request : Request) (message : String)
    (hmiss : cacheMatch cache request = none) :
    (networkFirst cache request (.rejected message)).1 = offlineResponse ∧
    (networkFirst cache request (.rejected message)).2 = cache ∧
    offlineResponse.status = 503 ∧
    offlineResponse.ok = false ∧
    offlineResponse.headers = [("Content-Type", "application/json")] ∧
    offlineResponse.body = "\x7b\"error\":\"Sin conexión. Modo offline.\"\x7d" := by
  refine ⟨?_, networkFirst_cache_of_rejected cache request message, rfl, rfl, rfl, rfl⟩
  simp [networkFirst, hmiss]

/-- Witness of C12: a GET request for which the cache only holds another URL. -/
theorem networkFirst_offline_response_witness :
    cacheMatch [("https://h/api/other", ⟨200, [], "x"⟩)]
      ⟨"https://h/api/inventory", "GET", "cors"⟩ = none ∧
    (networkFirst [("https://h/api/other", ⟨200, [], "x"⟩)]
      ⟨"https://h/api/inventory", "GET", "cors"⟩ (.rejected "Failed to fetch")).1.status = 503 :=
  ⟨by decide,
   (congrArg Response.status
     (networkFirst_offline_response [("https://h/api/other", ⟨200, [], "x"⟩)]
       ⟨"https://h/api/inventory", "GET", "cors"⟩ "Failed to fetch" (by decide)).1).trans rfl⟩

/-- C13 as stated fails: with no entry for the request and a fetch that succeeds
with an error response (status 404), `cacheFirst` returns the response and stores
nothing. -/
theorem cacheFirst_error_response_not_stored :
    cacheMatch [] ⟨"https://h/css/styles.css", "GET", "no-cors"⟩ = none ∧
    (cacheFirst "https://h" [] ⟨"https://h/css/styles.css", "GET", "no-cors"⟩
        (.resolved ⟨404, [], "Not Found"⟩)).result = .fulfilled ⟨404, [], "Not Found"⟩ ∧
    (cacheFirst "https://h" [] ⟨"https://h/css/styles.css", "GET", "no-cors"⟩
        (.resolved ⟨404, [], "Not Found"⟩)).cache = [] ∧
    cacheMatch
      (cacheFirst "https://h" [] ⟨"https://h/css/styles.css", "GET", "no-cors"⟩
        (.resolved ⟨404, [], "Not Found"⟩)).cache
      ⟨"https://h/css/styles.css", "GET", "no-cors"⟩ = none := by
  decide

/-- C13, amended: when the cache has an entry for the request, `cacheFirst` returns it
without issuing a network request and without changing the cache. Otherwise it issues
one fetch; a response the fetch resolves with is returned; if it is ok (status 200 to
299) and the `cache.put` of it is accepted (a GET of an `http` or `https` URL, a status
other than 206, no `Vary` header listing `*`) the response is stored in the cache under
the request, every other URL keeping its entry; a response that is not ok leaves the
cache as it was. -/
theorem cacheFirst_hit_or_ok_stored (origin : String) (cache : Cache) (request : Request)
    (outcome : FetchOutcome) :
    (∀ cached, cacheMatch cache request = some cached →
      cacheFirst origin cache request outcome = ⟨.fulfilled cached, cache, []⟩) ∧
    (cacheMatch cache request = none → ∀ response, outcome = .resolved response →
      (cacheFirst origin cache request outcome).result = .fulfilled response ∧
      (cacheFirst origin cache request outcome).fetches = [request] ∧
      (response.ok = true → putAccepted request response = true →
        cacheMatch (cacheFirst origin cache request outcome).cache request = some response ∧
        ∀ other : Request, other.url ≠ request.url →
          cacheMatch (cacheFirst origin cache request outcome).cache other
            = cacheMatch cache other) ∧
      (response.ok = false → (cacheFirst origin cache request outcome).cache = cache)) := by
  constructor
  · intro cached h
    simp [cacheFirst, h]
  · intro hmiss response hout
    subst hout
    cases hok : response.ok with
    | true =>
      have hrun : cacheFirst origin cache request (.resolved response)
          = ⟨.fulfilled response, cachePut cache request response, [request]⟩ := by
        simp [cacheFirst, hmiss, hok]
      rw [hrun]
      refine ⟨rfl, rfl, fun _ hput => ⟨?_, fun other hother => ?_⟩,
        fun h => Bool.noConfusion h⟩
      · have hget : request.method = "GET" := putAccepted_get request response hput
        show cacheMatch (cachePut cache request response) request = some response
        rw [cacheMatch_cachePut _ _ _ hput, if_pos hget, if_pos rfl]
      · show cacheMatch (cachePut cache request response) other = cacheMatch cache other
        rw [cacheMatch_cachePut _ _ _ hput, if_neg hother]
        unfold cacheMatch
        split_ifs <;> rfl
    | false =>
      have hrun : cacheFirst origin cache request (.resolved response)
          = ⟨.fulfilled response, cache, [request]⟩ := by
        simp [cacheFirst, hmiss, hok]
      rw [hrun]
      exact ⟨rfl, rfl, fun h => Bool.noConfusion h, fun _ => rfl⟩

/-- Witness of the amended C13: a stylesheet that is not cached is fetched with
status 200 and is found in the cache afterwards. -/
theorem cacheFirst_hit_or_ok_stored_witness :
    cacheMatch [("https://h/index.html", ⟨200, [], "<html>"⟩)]
      ⟨"https://h/css/styles.css", "GET", "no-cors"⟩ = none ∧
    putAccepted ⟨"https://h/css/styles.css", "GET", "no-cors"⟩ ⟨200, [], "body{}"⟩ = true ∧
    cacheMatch
      (cacheFirst "https://h" [("https://h/index.html", ⟨200, [], "<html>"⟩)]
        ⟨"https://h/css/styles.css", "GET", "no-cors"⟩ (.resolved ⟨200, [], "body{}"⟩)).cache
      ⟨"https://h/css/styles.css", "GET", "no-cors"⟩ = some ⟨200, [], "body{}"⟩ :=
  ⟨by decide, by decide,
   ((((cacheFirst_hit_or_ok_stored "https://h" [("https://h/index.html", ⟨200, [], "<html>"⟩)]
      ⟨"https://h/css/styles.css", "GET", "no-cors"⟩ (.resolved ⟨200, [], "body{}"⟩)).2
      (by decide) ⟨200, [], "body{}"⟩ rfl).2.2.1 rfl) (by decide)).1⟩

/-- C14 as stated fails: for a request that is not a navigation (an image, mode
`no-cors`), with no cache entry and a fetch that throws, `cacheFirst` does not pass the
failure on; its promise is fulfilled with the `Offline` response. -/
theorem cacheFirst_failure_not_propagated :
    cacheMatch [] ⟨"https://h/img/logo.png", "GET", "no-cors"⟩ = none ∧
    (cacheFirst "https://h" [] ⟨"https://h/img/logo.png", "GET", "no-cors"⟩
        (.rejected "Failed to fetch")).result = .fulfilled offlinePlaceholder ∧
    (cacheFirst "https://h" [] ⟨"https://h/img/logo.png", "GET", "no-cors"⟩
        (.rejected "Failed to fetch")).result ≠ .raised "Failed to fetch" ∧
    (cacheFirst "https://h" [("https://h/index.html", ⟨200, [], "<html>"⟩)]
        ⟨"https://h/img/logo.png", "GET", "no-cors"⟩
        (.rejected "Failed to fetch")).result = .fulfilled ⟨200, [], "<html>"⟩ := by
  decide

/-- C14, amended: when the cache has no entry for the request and the fetch throws,
`cacheFirst` never passes the failure on, whatever the mode of the request: its promise
is fulfilled with the cached `/index.html` if there is one and with the `Offline`
response of status 503 otherwise, and the cache is left as it was. -/
theorem cacheFirst_fallback_for_every_request (origin : String) (cache : Cache)
    (request : Request) (message : String) (hmiss : cacheMatch cache request = none) :
    (cacheFirst origin cache request (.rejected message)).result
      = .fulfilled
          ((cacheMatch cache ⟨origin ++ "/index.html", "GET", "cors"⟩).getD offlinePlaceholder) ∧
    (cacheFirst origin cache request (.rejected message)).cache = cache ∧
    (cacheFirst origin cache request (.rejected message)).fetches = [request] ∧
    offlinePlaceholder.status = 503 := by
  unfold cacheFirst
  simp only [hmiss]
  cases cacheMatch cache ⟨origin ++ "/index.html", "GET", "cors"⟩ with
  | none => exact ⟨rfl, rfl, rfl, rfl⟩
  | some fallback => exact ⟨rfl, rfl, rfl, rfl⟩

/-- Witness of the amended C14: a navigation to a page that is not cached, with
`/index.html` in the cache. -/
theorem cacheFirst_fallback_for_every_request_witness :
    cacheMatch [("https://h/index.html", ⟨200, [], "<html>"⟩)]
      ⟨"https://h/reports", "GET", "navigate"⟩ = none ∧
    (cacheFirst "https://h" [("https://h/index.html", ⟨200, [], "<html>"⟩)]
        ⟨"https://h/reports", "GET", "navigate"⟩ (.rejected "Failed to fetch")).result
      = .fulfilled ⟨200, [], "<html>"⟩ :=
  ⟨by decide,
   (cacheFirst_fallback_for_every_request "https://h"
      [("https://h/index.html", ⟨200, [], "<html>"⟩)]
      ⟨"https://h/reports", "GET", "navigate"⟩ "Failed to fetch" (by decide)).1.trans
     (by decide)⟩

/-- C15: a request whose URL starts with `http` is answered with `networkFirst` if and
only if the pathname of its URL starts with `/api/`, and with `cacheFirst` otherwise;
the answer is what the chosen function yields for the request. A request whose URL
does not start with `http` is not answered. This holds for every way `pathname` maps
URLs to paths. -/
theorem fetchListener_routes_by_pathname (pathname : String → String) (origin : String)
    (cache : Cache) (request : Request) (outcome : FetchOutcome) :
    (startsWith request.url "http" = true →
      ((∃ run, fetchListener pathname origin cache request outcome = some ⟨.networkFirst, run⟩)
        ↔ startsWith (pathname request.url) "/api/" = true) ∧
      (startsWith (pathname request.url) "/api/" = true →
        fetchListener pathname origin cache request outcome
          = some ⟨.networkFirst, ⟨.fulfilled (networkFirst cache request outcome).1,
              (networkFirst cache request outcome).2, [request]⟩⟩) ∧
      (startsWith (pathname request.url) "/api/" = false →
        fetchListener pathname origin cache request outcome
          = some ⟨.cacheFirst, cacheFirst origin cache request outcome⟩)) ∧
    (startsWith request.url "http" = false →
      fetchListener pathname origin cache request outcome = none) := by
  constructor
  · intro hhttp
    cases hapi : startsWith (pathname request.url) "/api/" with
    | true =>
      have hrun : fetchListener pathname origin cache request outcome
          = some ⟨.networkFirst, ⟨.fulfilled (networkFirst cache request outcome).1,
              (networkFirst cache request outcome).2, [request]⟩⟩ := by
        simp [fetchListener, hhttp, hapi]
      exact ⟨⟨fun _ => rfl, fun _ => ⟨_, hrun⟩⟩, fun _ => hrun, fun h => Bool.noConfusion h⟩
    | false =>
      have hrun : fetchListener pathname origin cache request outcome
          = some ⟨.cacheFirst, cacheFirst origin cache request outcome⟩ := by
        simp [fetchListener, hhttp, hapi]
      refine ⟨⟨?_, fun h => Bool.noConfusion h⟩, fun h => Bool.noConfusion h, fun _ => hrun⟩
      rintro ⟨run, h⟩
      rw [hrun] at h
      cases h
  · intro hhttp
    simp [fetchListener, hhttp]

/-- Witness of C15: an API call, a stylesheet and an extension resource. -/
theorem fetchListener_routes_by_pathname_witness :
    startsWith "https://h/api/inventory?limit=200" "http" = true ∧
    startsWith (urlPathname "https://h/api/inventory?limit=200") "/api/" = true ∧
    (fetchListener urlPathname "https://h" []
        ⟨"https://h/api/inventory?limit=200", "GET", "cors"⟩ (.rejected "down")).map
      (fun answer => answer.strategy) = some .networkFirst ∧
    (fetchListener urlPathname "https://h" []
        ⟨"https://h/css/api/styles.css", "GET", "no-cors"⟩ (.rejected "down")).map
      (fun answer => answer.strategy) = some .cacheFirst ∧
    fetchListener urlPathname "https://h" []
        ⟨"chrome-extension://abc/api/x.js", "GET", "no-cors"⟩ (.rejected "down") = none :=
  ⟨by decide, by decide,
   (congrArg (Option.map (fun answer => answer.strategy))
     (((fetchListener_routes_by_pathname urlPathname "https://h" []
        ⟨"https://h/api/inventory?limit=200", "GET", "cors"⟩ (.rejected "down")).1
        (by decide)).2.1 (by decide))).trans rfl,
   by decide, by decide⟩

/-- C16 as stated fails: the search term is trimmed before it is used. For the term
`"a "` the product titled `Mesa` is returned although neither its title nor its sku
contains `"a "`, and for the term `" "`, which is not empty, nothing is filtered at
all. -/
theorem getLocalProducts_trims_search_term :
    (getLocalProducts asciiLower ⟨[⟨"p1", some "Mesa", some "M-1", none, []⟩], [], 1⟩
        (some "a ") none).1 = [⟨"p1", some "Mesa", some "M-1", none, []⟩] ∧
    ¬ TitleOrSkuContains asciiLower "a " ⟨"p1", some "Mesa", some "M-1", none, []⟩ ∧
    (getLocalProducts asciiLower ⟨[⟨"p1", some "Mesa", some "M-1", none, []⟩], [], 1⟩
        (some " ") none).1 = [⟨"p1", some "Mesa", some "M-1", none, []⟩] ∧
    ¬ TitleOrSkuContains asciiLower " " ⟨"p1", some "Mesa", some "M-1", none, []⟩ := by
  refine ⟨by decide, ?_, by decide, ?_⟩
  · rintro (⟨title, hp, hc⟩ | ⟨sku, hp, hc⟩)
    · cases hp
      exact absurd ((containsIgnoringCase_iff _ _ _).mp hc) (by decide)
    · cases hp
      exact absurd ((containsIgnoringCase_iff _ _ _).mp hc) (by decide)
  · rintro (⟨title, hp, hc⟩ | ⟨sku, hp, hc⟩)
    · cases hp
      exact absurd ((containsIgnoringCase_iff _ _ _).mp hc) (by decide)
    · cases hp
      exact absurd ((containsIgnoringCase_iff _ _ _).mp hc) (by decide)

/-- C16, amended: for every store and every search term that is not blank (not empty
after `trim`), `getLocalProducts` returns only entities whose title or sku contains
the trimmed term as a case-insensitive substring, and whenever it returns fewer than
`limit` entities it returns every entity of the store with that property; for a term
that is blank (empty after `trim`) it filters nothing and returns the first `limit`
rows of the table, as it does when the term is absent. `toLowerCase` is any
lower-casing that maps exactly the empty string to the empty string. -/
theorem getLocalProducts_search_by_trimmed_term (toLowerCase : String → String)
    (hlower : ∀ s, toLowerCase s = "" ↔ s = "") (db : LocalDB)
    (searchTerm : String) (limit : Option Nat) :
    (trim searchTerm ≠ "" →
      (∀ e ∈ (getLocalProducts toLowerCase db (some searchTerm) limit).1,
        e ∈ db.products ∧ TitleOrSkuContains toLowerCase (trim searchTerm) e) ∧
      ((getLocalProducts toLowerCase db (some searchTerm) limit).1.length < limit.getD 50 →
        ∀ e ∈ db.products, TitleOrSkuContains toLowerCase (trim searchTerm) e →
          e ∈ (getLocalProducts toLowerCase db (some searchTerm) limit).1)) ∧
    (trim searchTerm = "" →
      (getLocalProducts toLowerCase db (some searchTerm) limit).1
        = db.products.take (limit.getD 50) ∧
      (getLocalProducts toLowerCase db (some searchTerm) limit).1
        = (getLocalProducts toLowerCase db none limit).1) := by
  constructor
  · intro hterm
    rw [getLocalProducts_of_term toLowerCase db searchTerm hterm limit]
    constructor
    · intro e he
      have hmem := List.mem_filter.mp (List.mem_of_mem_take he)
      exact ⟨hmem.1, (matchesTerm_iff toLowerCase hlower _ hterm e).mp hmem.2⟩
    · intro hlen e he hc
      have hall : (db.products.filter
          (matchesTerm toLowerCase (toLowerCase (trim searchTerm)))).length ≤ limit.getD 50 := by
        rw [List.length_take] at hlen
        omega
      rw [List.take_of_length_le hall]
      exact List.mem_filter.mpr ⟨he, (matchesTerm_iff toLowerCase hlower _ hterm e).mpr hc⟩
  · intro hblank
    have h2 : truthy (some (trim searchTerm)) = false := by
      rw [hblank]
      rfl
    have hsome : (getLocalProducts toLowerCase db (some searchTerm) limit).1
        = db.products.take (limit.getD 50) := by
      simp [getLocalProducts, h2]
    have hnone : (getLocalProducts toLowerCase db none limit).1
        = db.products.take (limit.getD 50) := by
      simp [getLocalProducts, truthy]
    exact ⟨hsome, hsome.trans hnone.symm⟩

/-- Witness of the amended C16: the term `" MES "` on a store of two products. -/
theorem getLocalProducts_search_by_trimmed_term_witness :
    trim " MES " ≠ "" ∧
    (∀ e ∈ (getLocalProducts asciiLower
        ⟨[⟨"p1", some "Mesa", some "M-1", none, []⟩, ⟨"p2", some "Silla", none, none, []⟩], [], 1⟩
        (some " MES ") (some 5)).1,
      e ∈ [(⟨"p1", some "Mesa", some "M-1", none, []⟩ : Entity),
           ⟨"p2", some "Silla", none, none, []⟩] ∧
      TitleOrSkuContains asciiLower (trim " MES ") e) ∧
    (getLocalProducts asciiLower
        ⟨[⟨"p1", some "Mesa", some "M-1", none, []⟩, ⟨"p2", some "Silla", none, none, []⟩], [], 1⟩
        (some " MES ") (some 5)).1 = [⟨"p1", some "Mesa", some "M-1", none, []⟩] :=
  ⟨by decide,
   ((getLocalProducts_search_by_trimmed_term asciiLower asciiLower_eq_empty
      ⟨[⟨"p1", some "Mesa", some "M-1", none, []⟩, ⟨"p2", some "Silla", none, none, []⟩], [], 1⟩
      " MES " (some 5)).1 (by decide)).1,
   by decide⟩

/-- C17: in every reachable state, for every search term and limit (absent or not),
`getLocalProducts` returns at most `limit` entities, at most 50 when the limit is
absent, each of them a row of the products table, none of them twice, and the
database is left as it was. -/
theorem getLocalProducts_bounded_read (toLowerCase : String → String) (db : LocalDB)
    (h : Reachable db) (searchTerm : Option String) (limit : Option Nat) :
    (getLocalProducts toLowerCase db searchTerm limit).1.length ≤ limit.getD 50 ∧
    (getLocalProducts toLowerCase db searchTerm none).1.length ≤ 50 ∧
    (∀ e ∈ (getLocalProducts toLowerCase db searchTerm limit).1, e ∈ db.products) ∧
    (getLocalProducts toLowerCase db searchTerm limit).1.Nodup ∧
    (getLocalProducts toLowerCase db searchTerm limit).2 = db := by
  have hsub := getLocalProducts_sublist toLowerCase db searchTerm limit
  refine ⟨hsub.2.1, (getLocalProducts_sublist toLowerCase db searchTerm none).2.1,
    fun e he => hsub.1.subset he, ?_, hsub.2.2⟩
  exact (nodup_of_productsOrdered (productsOrdered_of_reachable h)).sublist hsub.1

/-- Witness of C17: a store holding one product, read with limit 0 and without a
limit. -/
theorem getLocalProducts_bounded_read_witness :
    Reachable (saveProducts LocalDB.empty [⟨"p1", some "Mesa", some "M-1", none, []⟩]) ∧
    (getLocalProducts asciiLower
        (saveProducts LocalDB.empty [⟨"p1", some "Mesa", some "M-1", none, []⟩])
        (some "mesa") (some 0)).1.length ≤ (some 0).getD 50 ∧
    (getLocalProducts asciiLower
        (saveProducts LocalDB.empty [⟨"p1", some "Mesa", some "M-1", none, []⟩])
        (some "mesa") (some 0)).1 = [] ∧
    (getLocalProducts asciiLower
        (saveProducts LocalDB.empty [⟨"p1", some "Mesa", some "M-1", none, []⟩])
        none none).1 = [⟨"p1", some "Mesa", some "M-1", none, []⟩] :=
  ⟨Reachable.saveProducts _ Reachable.empty,
   (getLocalProducts_bounded_read asciiLower
      (saveProducts LocalDB.empty [⟨"p1", some "Mesa", some "M-1", none, []⟩])
      (Reachable.saveProducts _ Reachable.empty) (some "mesa") (some 0)).1,
   by decide, by decide⟩

/-- C18: in every reachable state no two rows of the products table share an id, and
this still holds after `saveProducts`; when `saveProducts` is given an entity (the last
one with its id in the array), the row under that id afterwards is that entity exactly
and it is the only row with that id, so nothing of an earlier snapshot is kept. -/
theorem saveProducts_replaces_whole_snapshot (db : LocalDB) (h : Reachable db)
    (products pre post : List Entity) (e : Entity)
    (hsplit : products = pre ++ e :: post) (hlast : ∀ x ∈ post, x.id ≠ e.id) :
    db.products.Pairwise (fun a b => a.id ≠ b.id) ∧
    (saveProducts db products).products.Pairwise (fun a b => a.id ≠ b.id) ∧
    getProduct (saveProducts db products).products e.id = some e ∧
    (saveProducts db products).products.filter (fun x => decide (x.id = e.id)) = [e] := by
  have hafter : (saveProducts db products).products.Pairwise (fun a b => a.id ≠ b.id) :=
    pairwise_ne_of_productsOrdered
      (productsOrdered_of_reachable (Reachable.saveProducts products h))
  have hget : getProduct (saveProducts db products).products e.id = some e := by
    rw [saveProducts_products, hsplit]
    have : bulkPut db.products (pre ++ e :: post)
        = bulkPut (putProduct (bulkPut db.products pre) e) post := by
      simp [bulkPut, List.foldl_append]
    rw [this, getProduct_bulkPut_of_absent _ _ _ hlast, getProduct_putProduct, if_pos rfl]
  exact ⟨pairwise_ne_of_productsOrdered (productsOrdered_of_reachable h), hafter, hget,
    filter_id_of_getProduct _ e hafter hget⟩

/-- Witness of C18: a stored product with title, sku, handle and a price is written
again with a title only; the row afterwards has the title only. -/
theorem saveProducts_replaces_whole_snapshot_witness :
    Reachable (saveProducts LocalDB.empty
      [⟨"p1", some "Mesa", some "M-1", some "mesa", [("price", "10")]⟩]) ∧
    getProduct (saveProducts LocalDB.empty
      [⟨"p1", some "Mesa", some "M-1", some "mesa", [("price", "10")]⟩]).products "p1"
      = some ⟨"p1", some "Mesa", some "M-1", some "mesa", [("price", "10")]⟩ ∧
    (saveProducts (saveProducts LocalDB.empty
        [⟨"p1", some "Mesa", some "M-1", some "mesa", [("price", "10")]⟩])
        [⟨"p1", some "Mesa roja", none, none, []⟩]).products.filter
        (fun x => decide (x.id = (Entity.mk "p1" (some "Mesa roja") none none []).id))
      = [⟨"p1", some "Mesa roja", none, none, []⟩] :=
  ⟨Reachable.saveProducts _ Reachable.empty, by decide,
   (saveProducts_replaces_whole_snapshot
      (saveProducts LocalDB.empty
        [⟨"p1", some "Mesa", some "M-1", some "mesa", [("price", "10")]⟩])
      (Reachable.saveProducts _ Reachable.empty)
      [⟨"p1", some "Mesa roja", none, none, []⟩] [] [] ⟨"p1", some "Mesa roja", none, none, []⟩
      rfl (by simp)).2.2.2⟩

/-- C19: after any sequence of calls of `saveProducts`, `clearProducts`, `enqueueSync`
and `drainSyncQueue` on the empty database, an `enqueueSync` call adds exactly one row,
with the type, payload and clock value given and a key strictly greater than the key of
every row that was ever enqueued before, drained or not; the rows already in the queue
stay in place in front of it and the products table is unchanged. -/
theorem enqueueSync_assigns_fresh_key (ops : List Op) (kind : String) (payload : Payload)
    (now : String) :
    (enqueueSync (runOps LocalDB.empty ops) kind payload now).syncQueue
      = (runOps LocalDB.empty ops).syncQueue
          ++ [⟨(runOps LocalDB.empty ops).nextId, kind, payload, now⟩] ∧
    newItems (runOps LocalDB.empty ops) (enqueueSync (runOps LocalDB.empty ops) kind payload now)
      = [⟨(runOps LocalDB.empty ops).nextId, kind, payload, now⟩] ∧
    (∀ old ∈ everEnqueued LocalDB.empty ops, old.id < (runOps LocalDB.empty ops).nextId) ∧
    (∀ old ∈ (runOps LocalDB.empty ops).syncQueue, old.id < (runOps LocalDB.empty ops).nextId) ∧
    (enqueueSync (runOps LocalDB.empty ops) kind payload now).products
      = (runOps LocalDB.empty ops).products := by
  have h := everEnqueued_lt_nextId ops LocalDB.empty queueOrdered_empty
  exact ⟨enqueueSync_syncQueue _ h.1 kind payload now,
    newItems_enqueueSync _ h.1 kind payload now, h.2.2, h.1.2, rfl⟩

/-- Witness of C19: two uploads are enqueued and drained; the next one gets key 3. -/
theorem enqueueSync_assigns_fresh_key_witness :
    everEnqueued LocalDB.empty
        [.enqueueSync "upload" ⟨some "YQ==", some "a.csv", []⟩ "t1",
         .enqueueSync "upload" ⟨some "Yg==", some "b.csv", []⟩ "t2", .drainSyncQueue]
      = [⟨1, "upload", ⟨some "YQ==", some "a.csv", []⟩, "t1"⟩,
         ⟨2, "upload", ⟨some "Yg==", some "b.csv", []⟩, "t2"⟩] ∧
    (enqueueSync (runOps LocalDB.empty
        [.enqueueSync "upload" ⟨some "YQ==", some "a.csv", []⟩ "t1",
         .enqueueSync "upload" ⟨some "Yg==", some "b.csv", []⟩ "t2", .drainSyncQueue])
        "upload" ⟨some "Yw==", some "c.csv", []⟩ "t3").syncQueue
      = [⟨3, "upload", ⟨some "Yw==", some "c.csv", []⟩, "t3"⟩] :=
  ⟨by decide,
   (enqueueSync_assigns_fresh_key
      [.enqueueSync "upload" ⟨some "YQ==", some "a.csv", []⟩ "t1",
       .enqueueSync "upload" ⟨some "Yg==", some "b.csv", []⟩ "t2", .drainSyncQueue]
      "upload" ⟨some "Yw==", some "c.csv", []⟩ "t3").1.trans (by decide)⟩

/-- C20 fails on the code: when an `enqueueSync` of another task is served between
the `toArray()` and the `clear()` of `drainSyncQueue`, the row it adds is in the queue
before the clear, gone when the drain completes, and not among the rows the drain
returns. -/
theorem drainSyncQueue_loses_interleaved_enqueue :
    (drainSyncQueueInterleaved ⟨[], [⟨1, "upload", ⟨some "YQ==", some "a.csv", []⟩, "t1"⟩], 2⟩
        [("upload", ⟨some "Yg==", some "b.csv", []⟩, "t2")]).1
      = [⟨1, "upload", ⟨some "YQ==", some "a.csv", []⟩, "t1"⟩] ∧
    (⟨2, "upload", ⟨some "Yg==", some "b.csv", []⟩, "t2"⟩ : QueueItem) ∈
      (enqueueAll ⟨[], [⟨1, "upload", ⟨some "YQ==", some "a.csv", []⟩, "t1"⟩], 2⟩
        [("upload", ⟨some "Yg==", some "b.csv", []⟩, "t2")]).syncQueue ∧
    (drainSyncQueueInterleaved ⟨[], [⟨1, "upload", ⟨some "YQ==", some "a.csv", []⟩, "t1"⟩], 2⟩
        [("upload", ⟨some "Yg==", some "b.csv", []⟩, "t2")]).2.syncQueue = [] ∧
    (⟨2, "upload", ⟨some "Yg==", some "b.csv", []⟩, "t2"⟩ : QueueItem) ∉
      (drainSyncQueueInterleaved ⟨[], [⟨1, "upload", ⟨some "YQ==", some "a.csv", []⟩, "t1"⟩], 2⟩
        [("upload", ⟨some "Yg==", some "b.csv", []⟩, "t2")]).1 := by
  decide

/-- C21 as stated fails: with the client online and a token stored, an `online` event
followed by a periodic tick, before any run has completed, leaves three runs in flight
and two product-list requests issued; the second trigger has started a run and issued
a request of its own. -/
theorem triggers_are_not_coalesced :
    (Scheduler.fire ⟨true, none, some "tok"⟩ ⟨[], []⟩ .online).running
      = [.syncProducts, .processSyncQueue] ∧
    (Scheduler.fire ⟨true, none, some "tok"⟩
        (Scheduler.fire ⟨true, none, some "tok"⟩ ⟨[], []⟩ .online) .tick).running
      = [.syncProducts, .processSyncQueue, .syncProducts] ∧
    (Scheduler.fire ⟨true, none, some "tok"⟩
        (Scheduler.fire ⟨true, none, some "tok"⟩ ⟨[], []⟩ .online) .tick).requested
      = ["http://localhost:3000/api/inventory?limit=200",
         "http://localhost:3000/api/inventory?limit=200"] ∧
    (Scheduler.fire ⟨true, none, some "tok"⟩
        (Scheduler.fire ⟨true, none, some "tok"⟩ ⟨[], []⟩ .online) .online).running.length
      = 4 := by
  decide

/-- C21, amended: there is no guard against overlapping runs. Whatever runs are in
flight, a trigger starts the calls of its handler and the runs in flight stay as they
are: an `online` event starts `syncProducts` and `processSyncQueue`; a tick that finds
the client online with a token stored starts `syncProducts`, and any other tick starts
nothing. The requests a trigger issues at once are those of the `syncProducts` runs it
starts, one product-list request each, whatever the state of the page; after any
sequence of triggers with no run completing in between, the runs of all of them are in
flight and each `syncProducts` among them has issued its own request. -/
theorem every_trigger_starts_its_calls (env : SyncEnv) (s : Scheduler) (t : Trigger) :
    (Scheduler.fire env s t).running = s.running ++ startedBy env t ∧
    (Scheduler.fire env s t).running.length = s.running.length + (startedBy env t).length ∧
    startedBy env .online = [.syncProducts, .processSyncQueue] ∧
    (Scheduler.fire env s .online).requested
      = s.requested ++ [getApiBase env ++ "/api/inventory?limit=200"] ∧
    (env.onLine = true ∧ truthy env.token = true →
      startedBy env .tick = [.syncProducts] ∧
      (Scheduler.fire env s .tick).running = s.running ++ [.syncProducts] ∧
      (Scheduler.fire env s .tick).requested
        = s.requested ++ [getApiBase env ++ "/api/inventory?limit=200"]) ∧
    (¬ (env.onLine = true ∧ truthy env.token = true) →
      startedBy env .tick = [] ∧ Scheduler.fire env s .tick = s) ∧
    (∀ (reply : InventoryReply) (db : LocalDB),
      (syncProducts env 200 reply db).requests
        = [getApiBase env ++ "/api/inventory?limit=200"]) ∧
    (∀ (reply : InventoryReply) (net : Nat → FetchOutcome) (db : LocalDB),
      (Scheduler.fire env s t).requested
        = s.requested ++ (runCalls env reply net (startedBy env t) db).refreshes) ∧
    (∀ (ts : List Trigger) (reply : InventoryReply) (net : Nat → FetchOutcome) (db : LocalDB),
      (ts.foldl (Scheduler.fire env) s).running
        = s.running ++ ts.flatMap (startedBy env) ∧
      (ts.foldl (Scheduler.fire env) s).requested
        = s.requested ++
          (runCalls env reply net (ts.flatMap (startedBy env)) db).refreshes) := by
  refine ⟨rfl, ?_, rfl, rfl, ?_, ?_, ?_, ?_, ?_⟩
  · show (s.running ++ startedBy env t).length = _
    rw [List.length_append]
  · intro hboth
    have hcb : startedBy env .tick = [.syncProducts] := by
      show intervalCallback env = _
      simp [intervalCallback, hboth.1, hboth.2]
    refine ⟨hcb, ?_, ?_⟩
    · show s.running ++ startedBy env .tick = _
      rw [hcb]
    · show s.requested ++ ((startedBy env .tick).filter _).map _ = _
      rw [hcb]
      rfl
  · intro hnot
    have hcb : startedBy env .tick = [] := by
      show intervalCallback env = _
      unfold intervalCallback
      split_ifs with h
      · exact absurd (by simpa [Bool.and_eq_true] using h) hnot
      · rfl
    refine ⟨hcb, ?_⟩
    show (⟨s.running ++ startedBy env .tick,
      s.requested ++ ((startedBy env .tick).filter _).map _⟩ : Scheduler) = s
    rw [hcb]
    simp
  · intro reply db
    exact syncProducts_requests env reply db
  · intro reply net db
    rw [runCalls_refreshes]
    rfl
  · intro ts reply net db
    rw [runCalls_refreshes]
    exact fire_sequence env ts s

/-- Witness of the amended C21: an `online` event in flight, then a tick with the
client online and a token stored; the tick issues a second product-list request. -/
theorem every_trigger_starts_its_calls_witness :
    (Scheduler.fire ⟨true, none, some "tok"⟩
        ⟨[.syncProducts, .processSyncQueue], ["http://localhost:3000/api/inventory?limit=200"]⟩
        .tick)
      = ⟨[.syncProducts, .processSyncQueue, .syncProducts],
         ["http://localhost:3000/api/inventory?limit=200",
          "http://localhost:3000/api/inventory?limit=200"]⟩ ∧
    (runCalls ⟨true, none, some "tok"⟩ (.json 200 (some []))
        (fun _ => .resolved ⟨200, [], ""⟩)
        [.syncProducts, .processSyncQueue, .syncProducts] LocalDB.empty).refreshes
      = ["http://localhost:3000/api/inventory?limit=200",
         "http://localhost:3000/api/inventory?limit=200"] :=
  ⟨by decide,
   (((every_trigger_starts_its_calls ⟨true, none, some "tok"⟩ ⟨[], []⟩ .online).2.2.2.2.2.2.2.2
      [.online, .tick] (.json 200 (some [])) (fun _ => .resolved ⟨200, [], ""⟩)
      LocalDB.empty).2.symm.trans (by decide))⟩

/-- C22 as stated fails: on a tick with the client online and a token stored, only
`syncProducts` is called; the queued upload stays in the sync queue and no upload
request is issued. -/
theorem tick_does_not_process_queue :
    intervalCallback ⟨true, none, some "tok"⟩ = [.syncProducts] ∧
    Call.processSyncQueue ∉ intervalCallback ⟨true, none, some "tok"⟩ ∧
    (onTick ⟨true, none, some "tok"⟩ (.json 200 (some [])) (fun _ => .resolved ⟨200, [], ""⟩)
        ⟨[], [⟨1, "upload", ⟨some "YQ==", some "a.csv", []⟩, "t1"⟩], 2⟩).db.syncQueue
      = [⟨1, "upload", ⟨some "YQ==", some "a.csv", []⟩, "t1"⟩] ∧
    requestsOf (onTick ⟨true, none, some "tok"⟩ (.json 200 (some []))
        (fun _ => .resolved ⟨200, [], ""⟩)
        ⟨[], [⟨1, "upload", ⟨some "YQ==", some "a.csv", []⟩, "t1"⟩], 2⟩).trace = [] := by
  decide

/-- C22, amended: the timer period is 60 000 ms; on a tick a run starts if and only if
the client is online and a non-empty token is stored, and the run is the snapshot
refresh (`syncProducts` with limit 200) alone: the sync queue is left as it is and no
upload is replayed. The drain and replay is started by the `online` event. -/
theorem tick_refreshes_snapshots_only (env : SyncEnv) (reply : InventoryReply)
    (net : Nat → FetchOutcome) (db : LocalDB) :
    SYNC_INTERVAL_MS = 60000 ∧
    (intervalCallback env ≠ [] ↔ env.onLine = true ∧ truthy env.token = true) ∧
    (env.onLine = true ∧ truthy env.token = true →
      intervalCallback env = [.syncProducts] ∧
      (onTick env reply net db).db = (syncProducts env 200 reply db).db ∧
      (onTick env reply net db).refreshes = (syncProducts env 200 reply db).requests) ∧
    (¬ (env.onLine = true ∧ truthy env.token = true) →
      onTick env reply net db = ⟨db, [], []⟩) ∧
    (onTick env reply net db).trace = [] ∧
    (onTick env reply net db).db.syncQueue = db.syncQueue ∧
    Call.processSyncQueue ∈ startedBy env .online := by
  have hcases : (env.onLine && truthy env.token) = true ∨ (env.onLine && truthy env.token) = false := by
    cases (env.onLine && truthy env.token) <;> simp
  have hqueue : (syncProducts env 200 reply db).db.syncQueue = db.syncQueue := by
    unfold syncProducts
    simp only
    cases reply with
    | networkError message => rfl
    | notJson status => rfl
    | json status products =>
      simp only
      split_ifs
      · cases products with
        | none => rfl
        | some array =>
          simp only
          split_ifs
          · exact (saveProducts_syncQueue db array).1
          · rfl
      · rfl
  rcases hcases with h | h
  · have hcb : intervalCallback env = [.syncProducts] := by simp [intervalCallback, h]
    have hrun : onTick env reply net db
        = ⟨(syncProducts env 200 reply db).db, (syncProducts env 200 reply db).requests ++ [], []⟩ := by
      simp [onTick, hcb, runCalls]
    have hboth : env.onLine = true ∧ truthy env.token = true := by
      simpa [Bool.and_eq_true] using h
    refine ⟨rfl, ?_, ?_, ?_, ?_, ?_, ?_⟩
    · rw [hcb]; simp [hboth]
    · intro _
      rw [hrun]
      exact ⟨hcb, rfl, List.append_nil _⟩
    · intro hn; exact absurd hboth hn
    · rw [hrun]
    · rw [hrun]; exact hqueue
    · simp [startedBy, onlineListener]
  · have hcb : intervalCallback env = [] := by simp [intervalCallback, h]
    have hrun : onTick env reply net db = ⟨db, [], []⟩ := by
      simp [onTick, hcb, runCalls]
    have hnot : ¬ (env.onLine = true ∧ truthy env.token = true) := by
      intro hb
      rw [hb.1, hb.2] at h
      exact Bool.noConfusion h
    refine ⟨rfl, ?_, ?_, ?_, ?_, ?_, ?_⟩
    · rw [hcb]; simp [hnot]
    · intro hb; exact absurd hb hnot
    · intro _; exact hrun
    · rw [hrun]
    · rw [hrun]
    · simp [startedBy, onlineListener]

/-- Witness of the amended C22: a tick online with a token refreshes the products and
leaves the queued upload alone. -/
theorem tick_refreshes_snapshots_only_witness :
    (onTick ⟨true, none, some "tok"⟩
        (.json 200 (some [⟨"p1", some "Mesa", none, none, []⟩]))
        (fun _ => .resolved ⟨200, [], ""⟩)
        ⟨[], [⟨1, "upload", ⟨some "YQ==", some "a.csv", []⟩, "t1"⟩], 2⟩).db
      = ⟨[⟨"p1", some "Mesa", none, none, []⟩],
         [⟨1, "upload", ⟨some "YQ==", some "a.csv", []⟩, "t1"⟩], 2⟩ :=
  (((tick_refreshes_snapshots_only ⟨true, none, some "tok"⟩
      (.json 200 (some [⟨"p1", some "Mesa", none, none, []⟩]))
      (fun _ => .resolved ⟨200, [], ""⟩)
      ⟨[], [⟨1, "upload", ⟨some "YQ==", some "a.csv", []⟩, "t1"⟩], 2⟩).2.2.1
      ⟨rfl, by decide⟩).2.1).trans (by decide)

/-- C23 fails on the code: when the `sync` event tagged `sync-inventory` is delivered
with no page open, the listener posts no message, and with a page open it posts one
message and nothing else; either way the queued upload stays in the sync queue and no
request is issued. -/
theorem syncListener_replays_nothing :
    syncListener "sync-inventory" []
        ⟨[], [⟨1, "upload", ⟨some "YQ==", some "a.csv", []⟩, "t1"⟩], 2⟩
      = ⟨[], ⟨[], [⟨1, "upload", ⟨some "YQ==", some "a.csv", []⟩, "t1"⟩], 2⟩, []⟩ ∧
    syncListener "sync-inventory" [7]
        ⟨[], [⟨1, "upload", ⟨some "YQ==", some "a.csv", []⟩, "t1"⟩], 2⟩
      = ⟨[(7, ⟨"BACKGROUND_SYNC", "sync-inventory"⟩)],
         ⟨[], [⟨1, "upload", ⟨some "YQ==", some "a.csv", []⟩, "t1"⟩], 2⟩, []⟩ := by
  decide

/-- C24: when `navigator.onLine` is false, `processSyncQueue` does nothing: no event,
hence no request, the database (sync queue, products, key generator) as it was, and
its promise fulfilled. -/
theorem processSyncQueue_offline_noop (env : SyncEnv) (net : Nat → FetchOutcome)
    (db : LocalDB) (hoff : env.onLine = false) :
    processSyncQueue env net db = ⟨db, [], .fulfilled .undefined⟩ ∧
    requestsOf (processSyncQueue env net db).trace = [] ∧
    (processSyncQueue env net db).db.syncQueue = db.syncQueue ∧
    (processSyncQueue env net db).db.products = db.products := by
  have h : processSyncQueue env net db = ⟨db, [], .fulfilled .undefined⟩ := by
    simp [processSyncQueue, hoff]
  rw [h]
  exact ⟨rfl, rfl, rfl, rfl⟩

/-- Witness of C24: offline, with an upload queued and a product stored. -/
theorem processSyncQueue_offline_noop_witness :
    (SyncEnv.mk false none (some "tok")).onLine = false ∧
    processSyncQueue ⟨false, none, some "tok"⟩ (fun _ => .resolved ⟨200, [], ""⟩)
        ⟨[⟨"p1", some "Mesa", none, none, []⟩],
         [⟨1, "upload", ⟨some "YQ==", some "a.csv", []⟩, "t1"⟩], 2⟩
      = ⟨⟨[⟨"p1", some "Mesa", none, none, []⟩],
          [⟨1, "upload", ⟨some "YQ==", some "a.csv", []⟩, "t1"⟩], 2⟩, [], .fulfilled .undefined⟩ :=
  ⟨rfl,
   (processSyncQueue_offline_noop ⟨false, none, some "tok"⟩ (fun _ => .resolved ⟨200, [], ""⟩)
      ⟨[⟨"p1", some "Mesa", none, none, []⟩],
       [⟨1, "upload", ⟨some "YQ==", some "a.csv", []⟩, "t1"⟩], 2⟩ rfl).1⟩

/-- C26: `authMiddleware` calls `next` exactly when the Authorization header is
`Bearer ` followed by a token that verifies, and then `req.user` is the decoded payload
and no response is sent; in every other case (header missing, not starting with
`Bearer `, token expired or otherwise failing verification) it responds with status
401 and does not call `next`. Every inventory route has the middleware as its first
handler. -/
theorem authMiddleware_guards_inventory (verify : String → VerifyOutcome)
    (authorization : Option String) :
    ((authMiddleware verify authorization).nextCalled = true ↔
      ∃ token payload, authorization = some ("Bearer " ++ token) ∧
        verify token = .decoded payload) ∧
    (∀ token payload, authorization = some ("Bearer " ++ token) →
      verify token = .decoded payload →
      authMiddleware verify authorization = ⟨none, none, true, some payload⟩) ∧
    ((authMiddleware verify authorization).nextCalled = false →
      (authMiddleware verify authorization).status = some 401 ∧
      (authMiddleware verify authorization).user = none) ∧
    (∀ route ∈ inventoryRoutes, route.handlers.head? = some "auth") := by
  have hsecond : ∀ token payload, authorization = some ("Bearer " ++ token) →
      verify token = .decoded payload →
      authMiddleware verify authorization = ⟨none, none, true, some payload⟩ := by
    intro token payload ha hv
    rw [ha, authMiddleware_of_bearer, hv]
  refine ⟨⟨?_, ?_⟩, hsecond, ?_, by decide⟩
  · intro hnext
    by_cases hb : ∃ token, authorization = some ("Bearer " ++ token)
    · obtain ⟨token, ha⟩ := hb
      rw [ha, authMiddleware_of_bearer] at hnext
      cases hv : verify token with
      | decoded payload => exact ⟨token, payload, ha, hv⟩
      | expired => rw [hv] at hnext; exact Bool.noConfusion hnext
      | invalid => rw [hv] at hnext; exact Bool.noConfusion hnext
    · rw [authMiddleware_of_not_bearer verify authorization hb] at hnext
      exact Bool.noConfusion hnext
  · rintro ⟨token, payload, ha, hv⟩
    rw [hsecond token payload ha hv]
  · intro hnext
    by_cases hb : ∃ token, authorization = some ("Bearer " ++ token)
    · obtain ⟨token, ha⟩ := hb
      rw [ha, authMiddleware_of_bearer] at hnext ⊢
      cases hv : verify token with
      | decoded payload => rw [hv] at hnext; exact Bool.noConfusion hnext
      | expired => exact ⟨rfl, rfl⟩
      | invalid => exact ⟨rfl, rfl⟩
    · rw [authMiddleware_of_not_bearer verify authorization hb]
      exact ⟨rfl, rfl⟩

/-- Witness of C26: a verifier that accepts one token and knows one expired token, on a
good header, an expired token, a lower-case scheme and a missing header. -/
theorem authMiddleware_guards_inventory_witness :
    authMiddleware (fun t => if t = "good" then .decoded "admin" else
        if t = "old" then .expired else .invalid) (some ("Bearer " ++ "good"))
      = ⟨none, none, true, some "admin"⟩ ∧
    authMiddleware (fun t => if t = "good" then .decoded "admin" else
        if t = "old" then .expired else .invalid) (some "Bearer old")
      = ⟨some 401, some "Token expirado", false, none⟩ ∧
    authMiddleware (fun t => if t = "good" then .decoded "admin" else
        if t = "old" then .expired else .invalid) (some "bearer good")
      = ⟨some 401, some "Token de autenticación requerido", false, none⟩ ∧
    authMiddleware (fun t => if t = "good" then .decoded "admin" else
        if t = "old" then .expired else .invalid) none
      = ⟨some 401, some "Token de autenticación requerido", false, none⟩ :=
  ⟨(authMiddleware_guards_inventory (fun t => if t = "good" then .decoded "admin" else
        if t = "old" then .expired else .invalid) (some ("Bearer " ++ "good"))).2.1
      "good" "admin" rfl rfl,
   by decide, by decide, by decide⟩

/-- C28: `saveProducts` never removes a snapshot. Every id stored before the call is
stored after it, the snapshot under an id that does not occur in the input is the same
as before, and the sync queue and its key generator are untouched. Hence a snapshot
whose id occurs in none of the product lists of any number of later refreshes is still
there after them; an empty array and a value that is not an array change nothing;
`clearProducts` empties the table. -/
theorem saveProducts_never_removes (db : LocalDB) (products : List Entity) :
    (∀ k, (getProduct db.products k).isSome = true →
      (getProduct (saveProducts db products).products k).isSome = true) ∧
    (∀ k, (∀ x ∈ products, x.id ≠ k) →
      getProduct (saveProducts db products).products k = getProduct db.products k) ∧
    (saveProducts db products).syncQueue = db.syncQueue ∧
    (saveProducts db products).nextId = db.nextId ∧
    (∀ (env : SyncEnv) (replies : List InventoryReply) (e : Entity),
      getProduct db.products e.id = some e →
      (∀ reply ∈ replies, ∀ status array, reply = .json status (some array) →
        ∀ x ∈ array, x.id ≠ e.id) →
      getProduct
        (replies.foldl (fun d reply => (syncProducts env 200 reply d).db) db).products e.id
        = some e) ∧
    saveProducts db [] = db ∧
    saveProductsOf db none = db ∧
    (clearProducts db).products = [] := by
  refine ⟨?_, ?_, (saveProducts_syncQueue db products).1, (saveProducts_syncQueue db products).2,
    ?_, rfl, rfl, rfl⟩
  · intro k hk
    rw [saveProducts_products]
    exact isSome_getProduct_bulkPut products _ k hk
  · intro k hk
    rw [saveProducts_products]
    exact getProduct_bulkPut_of_absent products _ k hk
  · intro env replies e he habsent
    rw [refreshes_keep env replies db e.id habsent]
    exact he

/-- Witness of C28: a stored product that the server no longer lists survives two
refreshes, one of which brings another product and one of which fails. -/
theorem saveProducts_never_removes_witness :
    getProduct
      ([InventoryReply.json 200 (some [⟨"p2", some "Silla", none, none, []⟩]),
        InventoryReply.networkError "down"].foldl
          (fun d reply => (syncProducts ⟨true, none, some "tok"⟩ 200 reply d).db)
          ⟨[⟨"p1", some "Mesa", none, none, []⟩], [], 1⟩).products
      (Entity.mk "p1" (some "Mesa") none none []).id
      = some ⟨"p1", some "Mesa", none, none, []⟩ :=
  (saveProducts_never_removes ⟨[⟨"p1", some "Mesa", none, none, []⟩], [], 1⟩ []).2.2.2.2.1
    ⟨true, none, some "tok"⟩
    [InventoryReply.json 200 (some [⟨"p2", some "Silla", none, none, []⟩]),
     InventoryReply.networkError "down"]
    ⟨"p1", some "Mesa", none, none, []⟩ (by decide)
    (by
      intro reply hreply status array hjson x hx
      rcases List.mem_cons.mp hreply with h | h
      · rw [h] at hjson
        cases hjson
        rw [List.mem_singleton.mp hx]
        decide
      · rw [List.mem_singleton.mp h] at hjson
        cases hjson)

/-- C29 fails on the code: for the limit `-5` the limit passed to the query is -5, not
a value between 1 and 100; a negative offset, in contrast, is raised to 0. -/
theorem getProducts_passes_negative_limit :
    getProductsPage (some "-5") (some "-3") = (-5, 0) ∧
    ¬ (1 ≤ (getProductsPage (some "-5") (some "-3")).1) ∧
    getProductsPage none none = (20, 0) ∧
    getProductsPage (some "0") (some "abc") = (20, 0) ∧
    getProductsPage (some "100000") (some "40") = (100, 40) := by
  decide

/-- C25 fails on the code: on an empty table, the CSV with the single row `Handle =
mesa, Title = Mesa` (no SKU) leaves one product row when `processCSV` runs once and two
rows with the same handle and title when it runs twice, both runs counting an insert;
a row with a SKU, in contrast, is inserted once and updated the second time. -/
theorem processCSV_duplicates_handle_only_rows :
    (processCSV safeDecimalOfInteger pgUpsert (.ok [[("Handle", "mesa"), ("Title", "Mesa")]])
        ⟨[], 1⟩).db.rows.length = 1 ∧
    (processCSV safeDecimalOfInteger pgUpsert (.ok [[("Handle", "mesa"), ("Title", "Mesa")]])
        (processCSV safeDecimalOfInteger pgUpsert (.ok [[("Handle", "mesa"), ("Title", "Mesa")]])
          ⟨[], 1⟩).db).db.rows.map (fun r => (r.data.handle, r.data.title, r.data.sku))
      = [(some "mesa", "Mesa", none), (some "mesa", "Mesa", none)] ∧
    (processCSV safeDecimalOfInteger pgUpsert (.ok [[("Handle", "mesa"), ("Title", "Mesa")]])
        (processCSV safeDecimalOfInteger pgUpsert (.ok [[("Handle", "mesa"), ("Title", "Mesa")]])
          ⟨[], 1⟩).db).result = .fulfilled ⟨1, 0, []⟩ ∧
    (processCSV safeDecimalOfInteger pgUpsert
        (.ok [[("Handle", "silla"), ("Title", "Silla"), ("Variant SKU", "S-1")]])
        (processCSV safeDecimalOfInteger pgUpsert
          (.ok [[("Handle", "silla"), ("Title", "Silla"), ("Variant SKU", "S-1")]])
          ⟨[], 1⟩).db).db.rows.length = 1 := by
  decide

/-- C30: for every list of parsed rows, whatever each query does (insert, update or
error), `processCSV` resolves with stats in which inserted + updated + the number of
errors is the number of rows; a query is issued for exactly the rows that have a title
and a SKU or a handle, so a row with an empty title or with neither SKU nor handle
only adds an error; inserted + updated never exceeds the number of queries. -/
theorem processCSV_accounts_for_every_row {σ : Type}
    (safeDecimal : Option String → Option Rat)
    (exec : σ → ProductParams → σ × QueryOutcome) (rows : List CsvRow) (db : σ) :
    ∃ stats : Stats,
      (processCSV safeDecimal exec (.ok rows) db).result = .fulfilled stats ∧
      stats.inserted + stats.updated + stats.errors.length = rows.length ∧
      (processCSV safeDecimal exec (.ok rows) db).queries.length
        = (rows.filter rowIsValid).length ∧
      stats.inserted + stats.updated ≤ (rows.filter rowIsValid).length ∧
      rows.length - (rows.filter rowIsValid).length ≤ stats.errors.length := by
  have h := foldl_processRow safeDecimal exec rows ⟨⟨0, 0, []⟩, db, []⟩
  simp only [List.length_nil, Nat.zero_add] at h
  refine ⟨(rows.foldl (processRow safeDecimal exec) ⟨⟨0, 0, []⟩, db, []⟩).stats, rfl, ?_, ?_, ?_, ?_⟩
  · omega
  · exact h.2.1
  · omega
  · omega

/-- C27: a file with at least one byte and a non-empty name that the wizard queues
while offline is, when `processSyncQueue` later runs online, uploaded in a request
whose file part holds exactly the bytes of the file under exactly its name; an item
whose stored `fileName` is missing or empty is uploaded under `inventory.csv`. -/
theorem queued_upload_replays_same_file (env : SyncEnv) (hon : env.onLine = true)
    (net : Nat → FetchOutcome) (token : Option String) (selectedFile : File)
    (hbytes : ∀ b ∈ selectedFile.bytes, b < 256) (hne : selectedFile.bytes ≠ [])
    (hname : selectedFile.name ≠ "") (now : String) (reply : UploadReply)
    (db : LocalDB) (h : Reachable db) :
    (∃ req : UploadRequest,
      (db.nextId, req) ∈ requestsOf
        (processSyncQueue env net
          (nextBtn2Click false token selectedFile now reply db).db).trace ∧
      req.fileBytes = selectedFile.bytes ∧ req.fileName = selectedFile.name ∧
      req.method = "POST" ∧ req.url = getApiBase env ++ "/api/inventory/upload") ∧
    (∀ (item : QueueItem) (bytes : List Nat),
      item.payload.fileName = none ∨ item.payload.fileName = some "" →
      (replayRequest env item bytes).fileName = "inventory.csv") := by
  constructor
  · have hqueue : (nextBtn2Click false token selectedFile now reply db).db.syncQueue
        = db.syncQueue ++
            [⟨db.nextId, "upload",
              ⟨some (btoa selectedFile.bytes), some selectedFile.name, []⟩, now⟩] :=
      enqueueSync_syncQueue db (queueOrdered_of_reachable h) _ _ _
    have hupload : uploadBytes ⟨db.nextId, "upload",
        ⟨some (btoa selectedFile.bytes), some selectedFile.name, []⟩, now⟩
        = some selectedFile.bytes := by
      have htruthy : truthy (some (btoa selectedFile.bytes)) = true :=
        (truthy_some_iff _).mpr (btoa_ne_empty _ hne)
      simp only [uploadBytes, htruthy, Option.getD_some, decide_True, Bool.and_self, if_true]
      exact atob_btoa _ hbytes hne
    refine ⟨replayRequest env ⟨db.nextId, "upload",
        ⟨some (btoa selectedFile.bytes), some selectedFile.name, []⟩, now⟩ selectedFile.bytes,
      ?_, rfl, ?_, rfl, rfl⟩
    · rw [requestsOf_processSyncQueue env net _ hon, List.mem_filterMap]
      refine ⟨⟨db.nextId, "upload",
        ⟨some (btoa selectedFile.bytes), some selectedFile.name, []⟩, now⟩, ?_, ?_⟩
      · rw [hqueue]
        simp
      · rw [hupload]
        rfl
    · have htruthy : truthy (some selectedFile.name) = true := (truthy_some_iff _).mpr hname
      simp [replayRequest, htruthy]
  · intro item bytes hfile
    rcases hfile with hfile | hfile
    · simp [replayRequest, hfile, truthy]
    · simp [replayRequest, hfile, truthy]

/-- Witness of C27: the three bytes `a,b` of `inv.csv`, queued offline behind an
earlier upload and replayed online. -/
theorem queued_upload_replays_same_file_witness :
    Reachable (enqueueSync LocalDB.empty "upload" ⟨some "YQ==", some "a.csv", []⟩ "t0") ∧
    requestsOf
      (processSyncQueue ⟨true, none, some "tok"⟩ (fun _ => .rejected "down")
        (nextBtn2Click false (some "tok") ⟨"inv.csv", "text/csv", [97, 44, 98]⟩ "t1"
          (.networkError "")
          (enqueueSync LocalDB.empty "upload" ⟨some "YQ==", some "a.csv", []⟩ "t0")).db).trace
      = [(1, ⟨"http://localhost:3000/api/inventory/upload", "POST",
            [("Authorization", "Bearer tok")], "a.csv", "text/csv", [97]⟩),
         (2, ⟨"http://localhost:3000/api/inventory/upload", "POST",
            [("Authorization", "Bearer tok")], "inv.csv", "text/csv", [97, 44, 98]⟩)] ∧
    (∃ req : UploadRequest,
      ((enqueueSync LocalDB.empty "upload" ⟨some "YQ==", some "a.csv", []⟩ "t0").nextId, req) ∈
        requestsOf
          (processSyncQueue ⟨true, none, some "tok"⟩ (fun _ => .rejected "down")
            (nextBtn2Click false (some "tok") ⟨"inv.csv", "text/csv", [97, 44, 98]⟩ "t1"
              (.networkError "")
              (enqueueSync LocalDB.empty "upload" ⟨some "YQ==", some "a.csv", []⟩ "t0")).db).trace ∧
      req.fileBytes = (File.mk "inv.csv" "text/csv" [97, 44, 98]).bytes ∧
      req.fileName = (File.mk "inv.csv" "text/csv" [97, 44, 98]).name ∧
      req.method = "POST" ∧
      req.url = getApiBase ⟨true, none, some "tok"⟩ ++ "/api/inventory/upload") :=
  ⟨Reachable.enqueueSync _ _ _ Reachable.empty, by decide,
   (queued_upload_replays_same_file ⟨true, none, some "tok"⟩ rfl (fun _ => .rejected "down")
      (some "tok") ⟨"inv.csv", "text/csv", [97, 44, 98]⟩ (by decide) (by decide) (by decide)
      "t1" (.networkError "")
      (enqueueSync LocalDB.empty "upload" ⟨some "YQ==", some "a.csv", []⟩ "t0")
      (Reachable.enqueueSync _ _ _ Reachable.empty)).1⟩

end Agentica
